import Mathlib

/-! # Reader manager and PN532 UART driver

A shallow embedding of `pkg/daemon/reader.go` (exit policy, token comparison,
the token pre-processing loop of `readerManager`) and of
`pkg/readers/pn532_uart/pn532_uart.go` (`connect`, `Open`, the poll loop,
`Close`, `Detect`, `Connected`), followed by the properties proved about them.

Pointers are `Option`s (`none` is `nil`), calls into collaborators that are
outside the two files are recorded in an effect log, and what collaborators
return is an explicit environment argument.
-/

namespace Tapto

/-! ## Tokens -/

/-- Modelled from the spec: the `Type` field of a token and of a passive
target (package `tokens`, not in the sources): "variant: NTAG | Mifare | other". -/
inductive TokenType where
  | NTAG
  | Mifare
  | other (name : String)
deriving DecidableEq, Repr

/-- The fields of `tokens.Token` that the two files read or write. -/
structure Token where
  TokenType : TokenType
  UID : String
  Text : String
  Data : String
  ScanTime : Nat
  FromApi : Bool
  Source : String
deriving DecidableEq, Repr

/-- The zero value `tokens.Token{}`. -/
def Token.empty : Token :=
  { TokenType := .other "", UID := "", Text := "", Data := "", ScanTime := 0,
    FromApi := false, Source := "" }

/-- The fields of `readers.Scan`: `Error` is `none` for a `nil` error. -/
structure Scan where
  Source : String
  Token : Option Token
  Error : Option String
deriving DecidableEq, Repr

/-! ## Exit policy -/

/-- What `shouldExit` reads from `cfg`, `pl` and `st`. -/
structure ExitInputs where
  exitGame : Bool
  exitGameBlocklist : List String
  exitGameDelay : Nat
  activeLauncher : String
  lastScanned : Token
  launcherDisabled : Bool
deriving Repr

/-- Modelled from the spec: `inExitGameBlocklist` (not in the sources), "the
active launcher type is on a configured exclusion list". -/
def inExitGameBlocklist (x : ExitInputs) : Bool :=
  x.exitGameBlocklist.contains x.activeLauncher

/-- The function `shouldExit` of `reader.go`. -/
def shouldExit (x : ExitInputs) : Bool :=
  if !x.exitGame then false
  else if x.activeLauncher == "" then false
  else if x.lastScanned.FromApi || x.launcherDisabled then false
  else if inExitGameBlocklist x then false
  else true

/-- The function `cmpTokens` of `reader.go`; `none` is the `nil` pointer. -/
def cmpTokens (a b : Option Token) : Bool :=
  match a, b with
  | none, _ => false
  | _, none => false
  | some x, some y => x.UID == y.UID && x.Text == y.Text

/-! ## The exit timer -/

/-- State of a Go `time.Timer`: waiting, expired, or stopped by `Stop`. -/
inductive TimerStatus where
  | pending
  | fired
  | stopped
deriving DecidableEq, Repr

/-- A timer created by `time.NewTimer`; `id` tells one timer from another. -/
structure Timer where
  id : Nat
  status : TimerStatus
deriving DecidableEq, Repr

/-- The method `Timer.Stop`: true exactly when the call stops a waiting timer. -/
def Timer.Stop (t : Timer) : Bool × Timer :=
  match t.status with
  | .pending => (true, { t with status := .stopped })
  | .fired => (false, t)
  | .stopped => (false, t)

/-- The runtime expiring a timer: only a waiting timer fires. -/
def Timer.expire (t : Timer) : Timer :=
  match t.status with
  | .pending => { t with status := .fired }
  | .fired => t
  | .stopped => t

/-! ## Reader manager -/

/-- Calls the manager makes on its collaborators, in program order. -/
inductive Effect where
  | playFailSound
  | playSuccessSound
  | timerStop (id : Nat) (stopped : Bool)
  | timerNew (id : Nat) (seconds : Nat)
  | enqueue (t : Token)
  | setActiveCard (t : Token)
  | shouldExitCalled (result : Bool)
deriving DecidableEq, Repr

/-- The local variables of `readerManager`, the launch queue it feeds and the
log of its calls. `lastError = none` is the zero `time.Time`. -/
structure ManagerState where
  lastError : Option Nat
  prevToken : Option Token
  softwareToken : Option Token
  exitTimer : Option Timer
  nextTimerId : Nat
  launchQueue : List Token
  effects : List Effect
deriving DecidableEq, Repr

/-- The state at entry of the pre-processing loop. -/
def ManagerState.init : ManagerState :=
  { lastError := none, prevToken := none, softwareToken := none, exitTimer := none,
    nextTimerId := 0, launchQueue := [], effects := [] }

/-- What the collaborators answer during one iteration of the loop: the clock
(nanoseconds), the stop flag and the inputs of `shouldExit`. -/
structure Env where
  now : Nat
  shouldStopService : Bool
  exit : ExitInputs
deriving Repr

/-- What `select` receives: a scan from the input queue or a token from the
software queue. -/
inductive Event where
  | scan (t : Scan)
  | software (st : Option Token)
deriving Repr

/-- Append one call to the log. -/
def ManagerState.emit (s : ManagerState) (e : Effect) : ManagerState :=
  { s with effects := s.effects ++ [e] }

/-- The closure `playFail`: the zero `lastError` is centuries old. -/
def playFail (env : Env) (s : ManagerState) : ManagerState :=
  match s.lastError with
  | none => s.emit .playFailSound
  | some t => if env.now - t > 1000000000 then s.emit .playFailSound else s

/-- The closure `startTimedExit`: stop the old timer if there is one, then
create a new one. -/
def startTimedExit (env : Env) (s : ManagerState) : ManagerState :=
  let s1 :=
    match s.exitTimer with
    | some t =>
      let r := t.Stop
      { (s.emit (.timerStop t.id r.1)) with exitTimer := some r.2 }
    | none => s
  { (s1.emit (.timerNew s1.nextTimerId env.exit.exitGameDelay)) with
    exitTimer := some { id := s1.nextTimerId, status := .pending },
    nextTimerId := s1.nextTimerId + 1 }

/-- The part of the loop body after `select`, for the scanned token `scan`. -/
def processScan (env : Env) (scan : Option Token) (s : ManagerState) : ManagerState :=
  if cmpTokens scan s.prevToken then s
  else
    let s := { s with prevToken := scan }
    match scan with
    | some tok =>
      if !env.exit.launcherDisabled then
        let send (s : ManagerState) : ManagerState :=
          { (s.emit .playSuccessSound |>.emit (.enqueue tok)) with
            launchQueue := s.launchQueue ++ [tok] }
        match s.exitTimer with
        | some t =>
          let r := t.Stop
          let s := { (s.emit (.timerStop t.id r.1)) with exitTimer := some r.2 }
          if r.1 && cmpTokens scan s.softwareToken then s
          else if r.1 then send (startTimedExit env s)
          else send s
        | none => send s
      else s
    | none =>
      let s := s.emit (.setActiveCard Token.empty)
      let b := shouldExit env.exit
      let s := s.emit (.shouldExitCalled b)
      if b then startTimedExit env s else s

/-- One iteration of the pre-processing loop of `readerManager`. -/
def readerManagerStep (env : Env) (ev : Event) (s : ManagerState) : ManagerState :=
  match ev with
  | .scan t =>
    match t.Error with
    | some _ => { (playFail env s) with lastError := some env.now }
    | none => processScan env t.Token s
  | .software st =>
    let s :=
      match s.exitTimer with
      | some t =>
        if !cmpTokens st s.softwareToken then
          let r := t.Stop
          { (s.emit (.timerStop t.id r.1)) with exitTimer := some r.2 }
        else s
      | none => s
    { s with softwareToken := st }

/-- The exit timer expires between two iterations. -/
def timerExpires (s : ManagerState) : ManagerState :=
  { s with exitTimer := s.exitTimer.map Timer.expire }

/-- What happens between two loop conditions: an iteration, or the timer
expiring while the loop waits. -/
inductive Input where
  | event (env : Env) (ev : Event)
  | expire
deriving Repr

/-- The pre-processing loop of `readerManager`, run on the inputs it meets: it
ends when the stop flag is seen at the loop condition. -/
def readerManager : List Input → ManagerState → ManagerState
  | [], s => s
  | .event env ev :: rest, s =>
    if env.shouldStopService then s else readerManager rest (readerManagerStep env ev s)
  | .expire :: rest, s => readerManager rest (timerExpires s)

/-! ## Strings -/

/-- Go `strings.HasPrefix`. -/
def HasPrefix (s pre : String) : Bool :=
  pre.toList.isPrefixOf s.toList

/-- Go `strings.HasSuffix`. -/
def HasSuffix (s suf : String) : Bool :=
  suf.toList.isSuffixOf s.toList

/-- Modelled from the spec: `utils.Contains` (not in the sources), "it is in
the negative (blocklist) set", "it exactly matches an already-connected device
spec in the caller-supplied exclusion list". -/
def Contains (xs : List String) (x : String) : Bool :=
  xs.contains x

/-- The text before and after the first colon, if there is a colon. -/
def cutColon : List Char → Option (List Char × List Char)
  | [] => none
  | c :: cs =>
    if c = ':' then some ([], cs)
    else (cutColon cs).map (fun p => (c :: p.1, p.2))

/-- Go `strings.SplitN(device, ":", 2)`. -/
def SplitN (device : String) : List String :=
  match cutColon device.toList with
  | none => [device]
  | some (a, b) => [String.mk a, String.mk b]

/-- One hexadecimal digit. -/
def hexDigit (n : Nat) : Char :=
  "0123456789abcdef".toList.getD n '0'

/-- Go `hex.EncodeToString`. -/
def EncodeToString (bytes : List (Fin 256)) : String :=
  String.mk (bytes.flatMap (fun b => [hexDigit (b.val / 16), hexDigit (b.val % 16)]))

/-! ## PN532 UART driver: connecting -/

/-- A `serial.Port` obtained from `serial.Open`: how often `Close` was called
on it, and the error its `Close` reports, if any. -/
structure Port where
  name : String
  closeError : Option String
  closeCalls : Nat
deriving DecidableEq, Repr

/-- The method `Close` of a port. -/
def Port.Close (p : Port) : Option String × Port :=
  (p.closeError, { p with closeCalls := p.closeCalls + 1 })

/-- What the serial library and the PN532 commands of the handshake answer for
a port name: `none` is success, `some e` the error. -/
structure SerialEnv where
  openError : String → Option String
  closeError : String → Option String
  setReadTimeoutError : String → Option String
  samConfigurationError : String → Option String
  getFirmwareVersionError : String → Option String
  getGeneralStatusError : String → Option String

/-- The function `connect`: the port (`none` is `nil`) and the error. When
`serial.Open` fails there is no port. -/
def connect (hw : SerialEnv) (name : String) : Option Port × Option String :=
  match hw.openError name with
  | some e => (none, some e)
  | none =>
    let port : Port := { name := name, closeError := hw.closeError name, closeCalls := 0 }
    match hw.setReadTimeoutError name with
    | some e => (some port, some e)
    | none =>
      match hw.samConfigurationError name with
      | some e => (some port, some e)
      | none =>
        match hw.getFirmwareVersionError name with
        | some e => (some port, some e)
        | none =>
          match hw.getGeneralStatusError name with
          | some e => (some port, some e)
          | none => (some port, none)

/-! ## PN532 UART driver: the reader -/

/-- The struct `Pn532UartReader` (without its configuration pointer). -/
structure Pn532UartReader where
  device : String
  name : String
  polling : Bool
  port : Option Port
  lastToken : Option Token
deriving DecidableEq, Repr

/-- The function `NewReader`. -/
def NewReader : Pn532UartReader :=
  { device := "", name := "", polling := false, port := none, lastToken := none }

/-- The method `Ids`. -/
def Ids : List String := ["pn532_uart"]

/-- The method `Connected`. -/
def Pn532UartReader.Connected (r : Pn532UartReader) : Bool :=
  r.polling && r.port.isSome

/-- The method `Close`: the error returned and the reader afterwards. -/
def Pn532UartReader.Close (r : Pn532UartReader) : Option String × Pn532UartReader :=
  let r := { r with polling := false }
  match r.port with
  | some p =>
    let c := p.Close
    (c.1, { r with port := some c.2 })
  | none => (none, r)

/-! ## PN532 UART driver: the poll loop -/

/-- A target returned by `InListPassiveTarget`. -/
structure Target where
  TokenType : TokenType
  Uid : String
deriving DecidableEq, Repr

/-- The payload returned by `ReadNtag`. -/
structure TagData where
  Bytes : List (Fin 256)
deriving DecidableEq, Repr

/-- What the hardware answers in one poll: the clock, the passive-target query
(`.ok none` is "no target"), and the NTAG read should the loop ask for it. -/
structure Poll where
  now : Nat
  inListPassiveTarget : Except String (Option Target)
  readNtag : Except String TagData

/-- What the poll loop meets between two loop conditions: a poll, or a call of
`Close` made by another goroutine. -/
inductive PollInput where
  | poll (o : Poll)
  | close

/-- Modelled from the spec: `utils.TokensEqual` (not in the sources), "the
driver's own equality rule (UID+Text+payload)". -/
def TokensEqual (a b : Option Token) : Bool :=
  match a, b with
  | some x, some y => x.UID == y.UID && x.Text == y.Text && x.Data == y.Data
  | none, none => true
  | _, _ => false

/-- The reader, the loop's error counter, the scans sent on the output queue
so far, and whether the goroutine has returned. -/
structure PollState where
  r : Pn532UartReader
  errors : Nat
  sent : List Scan
  exited : Bool
deriving DecidableEq, Repr

/-- The constant `maxErrors`. -/
def maxErrors : Nat := 5

/-- The state in which the goroutine started by a successful `Open` begins. -/
def PollState.start (r : Pn532UartReader) : PollState :=
  { r := r, errors := 0, sent := [], exited := false }

/-- The end of the loop body once the payload `td` is known: decode the text,
build the token, send it if it differs from the remembered one, remember it. -/
def pollToken (parseRecordText : List (Fin 256) → Except String String)
    (o : Poll) (tgt : Target) (td : TagData) (st : PollState) : PollState :=
  let tagText :=
    match parseRecordText td.Bytes with
    | .error _ => ""
    | .ok t => t
  let token : Token :=
    { TokenType := tgt.TokenType, UID := tgt.Uid, Text := tagText,
      Data := EncodeToString td.Bytes, ScanTime := o.now, FromApi := false,
      Source := st.r.device }
  let st :=
    if !TokensEqual (some token) st.r.lastToken then
      { st with sent := st.sent ++ [Scan.mk st.r.device (some token) none] }
    else st
  { st with r := { st.r with lastToken := some token } }

/-- The loop body after the sleep, for the answers `o` of the hardware. -/
def pollBody (parseRecordText : List (Fin 256) → Except String String)
    (o : Poll) (st : PollState) : PollState :=
  match o.inListPassiveTarget with
  | .error _ => { st with errors := st.errors + 1 }
  | .ok none =>
    match st.r.lastToken with
    | some _ =>
      { st with
        sent := st.sent ++ [Scan.mk st.r.device none none],
        r := { st.r with lastToken := none } }
    | none => st
  | .ok (some tgt) =>
    let st := { st with errors := 0 }
    let same :=
      match st.r.lastToken with
      | some l => l.UID == tgt.Uid
      | none => false
    if same then st
    else if tgt.TokenType = .NTAG then
      match o.readNtag with
      | .error _ => st
      | .ok td => pollToken parseRecordText o tgt td st
    else if tgt.TokenType = .Mifare then st
    else pollToken parseRecordText o tgt { Bytes := [] } st

/-- The goroutine started by `Open`, run on the inputs it meets. Each round
starts at the loop condition `r.polling`, then the error budget. -/
def pollLoop (parseRecordText : List (Fin 256) → Except String String) :
    List PollInput → PollState → PollState
  | ins, st =>
    if st.exited then st
    else if !st.r.polling then { st with exited := true }
    else if st.errors ≥ maxErrors then
      { st with r := { st.r.Close.2 with polling := false }, exited := true }
    else
      match ins with
      | [] => st
      | .poll o :: rest => pollLoop parseRecordText rest (pollBody parseRecordText o st)
      | .close :: rest => pollLoop parseRecordText rest { st with r := st.r.Close.2 }

/-! ## PN532 UART driver: opening -/

/-- The outcome of `Open`: the error returned (`none` is `nil`), the reader
afterwards, the ports on which `Close` was called, and the goroutine started,
in the state in which it begins (`none` when no goroutine is started). -/
structure OpenResult where
  err : Option String
  reader : Pn532UartReader
  closed : List Port
  loop : Option PollState
deriving DecidableEq, Repr

/-- The method `Open`. `statError` is the answer of `os.Stat`. -/
def Pn532UartReader.Open (goos : String) (statError : String → Option String)
    (hw : SerialEnv) (device : String) (r : Pn532UartReader) : OpenResult :=
  match SplitN device with
  | [id, name] =>
    if !Contains Ids id then
      { err := some ("invalid reader id: " ++ id), reader := r, closed := [], loop := none }
    else
      match (if goos != "windows" then statError name else none) with
      | some e => { err := some e, reader := r, closed := [], loop := none }
      | none =>
        match connect hw name with
        | (some port, some e) =>
          { err := some e, reader := r, closed := [port.Close.2], loop := none }
        | (none, some e) => { err := some e, reader := r, closed := [], loop := none }
        | (port, none) =>
          let r := { r with port := port, device := device, name := name, polling := true }
          { err := none, reader := r, closed := [], loop := some (PollState.start r) }
  | _ =>
    { err := some ("invalid device string: " ++ device), reader := r, closed := [],
      loop := none }

/-! ## PN532 UART driver: discovery -/

/-- What `Detect` reads from the system: `runtime.GOOS`, the list returned by
`serial.GetPortsList` (empty when it fails), the absolute path a symlink
resolves to (`os.Readlink`, then `filepath.Abs` of the link joined to its
directory; `none` when either fails), and the serial hardware. -/
structure DetectEnv where
  goos : String
  ports : List String
  resolve : String → Option String
  hw : SerialEnv

/-- One call of `connect` made by `Detect`, with the block list at that time. -/
structure Probe where
  name : String
  blockList : List String
deriving DecidableEq, Repr

/-- The outcome of `Detect`: the string returned (`none` when the call faults
on a `nil` port), the block list afterwards, the calls of `connect` and the
ports closed. -/
structure DetectResult where
  device : Option String
  serialBlockList : List String
  probes : List Probe
  closed : List Port
deriving DecidableEq, Repr

/-- The platform's naming filter of the first loop of `Detect`. -/
def nameFilter (goos name : String) : Bool :=
  if goos == "windows" then HasPrefix name "COM"
  else if goos == "darwin" then HasPrefix name "/dev/tty."
  else HasPrefix name "/dev/ttyUSB" || HasPrefix name "/dev/ttyACM"

/-- The first loop of `Detect`. -/
def toCheck (env : DetectEnv) : List String :=
  env.ports.filter (nameFilter env.goos)

/-- The symlink test of `Detect` on a non-Windows target. -/
def skipResolved (env : DetectEnv) (connected : List String) (name : String) : Bool :=
  if env.goos != "windows" then
    let realPath := (env.resolve name).getD ""
    if realPath != "" && Contains connected realPath then true
    else if realPath != "" && HasSuffix realPath (":" ++ realPath) then true
    else false
  else false

/-- The second loop of `Detect`, over the candidates left. -/
def detectLoop (env : DetectEnv) (connected : List String) :
    List String → DetectResult → DetectResult
  | [], acc => { acc with device := some "" }
  | name :: rest, acc =>
    let device := "pn532_uart:" ++ name
    if Contains acc.serialBlockList name then detectLoop env connected rest acc
    else if Contains connected device then detectLoop env connected rest acc
    else if skipResolved env connected name then detectLoop env connected rest acc
    else if connected.any (fun connDev => HasSuffix connDev (":" ++ name)) then
      detectLoop env connected rest acc
    else
      let acc := { acc with probes := acc.probes ++ [Probe.mk name acc.serialBlockList] }
      match connect env.hw name with
      | (port, some _) =>
        match port with
        | none => { acc with device := none }
        | some p =>
          detectLoop env connected rest
            { acc with closed := acc.closed ++ [p.Close.2],
                       serialBlockList := acc.serialBlockList ++ [name] }
      | (port, none) =>
        match port with
        | none => { acc with device := none }
        | some p => { acc with closed := acc.closed ++ [p.Close.2], device := some device }

/-- The method `Detect`, from the block list `serialBlockList`. -/
def Detect (env : DetectEnv) (serialBlockList connected : List String) : DetectResult :=
  detectLoop env connected (toCheck env)
    { device := some "", serialBlockList := serialBlockList, probes := [], closed := [] }

/-! ## Auxiliary definitions and concrete data for the properties -/

/-- An input of `shouldExit` on which every condition lets the exit through,
except the launcher-disabled flag when `disabled` is set. -/
def exitInputsPermissive (disabled : Bool) : ExitInputs :=
  { exitGame := true, exitGameBlocklist := [], exitGameDelay := 3,
    activeLauncher := "Genesis", lastScanned := Token.empty, launcherDisabled := disabled }

/-- A scan event carrying the token `t` (absent for a removal) and no error. -/
def scanOf (source : String) (t : Option Token) : Event :=
  .scan { Source := source, Token := t, Error := none }

/-- The timer of the state, if any, is not waiting to fire. -/
def ManagerState.noTimerArmed (s : ManagerState) : Prop :=
  ∀ t, s.exitTimer = some t → t.status ≠ .pending

instance (s : ManagerState) : Decidable s.noTimerArmed :=
  match h : s.exitTimer with
  | none => isTrue (by intro t ht; simp [h] at ht)
  | some t =>
    if hp : t.status = .pending then
      isFalse (fun hn => hn t h hp)
    else
      isTrue (by intro u hu; rw [h] at hu; cases hu; exact hp)

/-- The token of the concrete runs below. -/
def tokenA : Token :=
  { TokenType := .NTAG, UID := "04a1b2c3", Text := "Genesis/Sonic.md", Data := "",
    ScanTime := 0, FromApi := false, Source := "pn532_uart:/dev/ttyUSB0" }

/-- An environment in which `shouldExit` answers true. -/
def envExit : Env :=
  { now := 0, shouldStopService := false, exit := exitInputsPermissive false }

/-- The calls `startTimedExit` makes to stop the timer `t`. -/
def stopLog (t : Option Timer) : List Effect :=
  match t with
  | some t => [.timerStop t.id t.Stop.1]
  | none => []

/-- The state after token A was scanned from the initial state. -/
def afterInsert : ManagerState :=
  readerManagerStep envExit (scanOf "r" (some tokenA)) ManagerState.init

/-- The state after token A was then removed, `shouldExit` answering true. -/
def afterRemoval : ManagerState :=
  readerManagerStep envExit (scanOf "r" none) afterInsert

/-- A second token, with another UID than `tokenA`. -/
def tokenB : Token :=
  { tokenA with UID := "04ffee01", Text := "SNES/Zelda.sfc" }

/-- The passive-target query of the poll returned a protocol error. -/
def Poll.failed (o : Poll) : Bool :=
  match o.inListPassiveTarget with
  | .error _ => true
  | .ok _ => false

/-- What holds of the reader throughout the goroutine: it has a port, `Close`
was called on that port once polling is off, and polling is off once the
goroutine has returned. -/
def PollState.sound (st : PollState) : Prop :=
  (∃ p : Port, st.r.port = some p ∧ (st.r.polling = false → 0 < p.closeCalls)) ∧
  (st.exited = true → st.r.polling = false)

/-- Serial hardware on which every step of the handshake succeeds. -/
def hwOk : SerialEnv :=
  { openError := fun _ => none, closeError := fun _ => none,
    setReadTimeoutError := fun _ => none, samConfigurationError := fun _ => none,
    getFirmwareVersionError := fun _ => none, getGeneralStatusError := fun _ => none }

/-- The reader after `Open` succeeded on `/dev/ttyUSB0`. -/
def readerOpened : Pn532UartReader :=
  { device := "pn532_uart:/dev/ttyUSB0", name := "/dev/ttyUSB0", polling := true,
    port := some { name := "/dev/ttyUSB0", closeError := none, closeCalls := 0 },
    lastToken := none }

/-- A poll whose passive-target query fails. -/
def pollFailed : Poll :=
  { now := 0, inListPassiveTarget := .error "timeout", readNtag := .error "timeout" }

/-- A poll that finds an NTAG and reads it. -/
def pollNtag : Poll :=
  { now := 0, inListPassiveTarget := .ok (some { TokenType := .NTAG, Uid := "04a1b2c3" }),
    readNtag := .ok { Bytes := [] } }

/-- A record parser that finds no text. -/
def parseNothing : List (Fin 256) → Except String String :=
  fun _ => .error "no NDEF"

/-- A Linux host on which `/dev/ttyUSB9` is a symlink to `/dev/ttyUSB0` and
every handshake succeeds. -/
def symlinkEnv : DetectEnv :=
  { goos := "linux", ports := ["/dev/ttyUSB0", "/dev/ttyUSB9"],
    resolve := fun name => if name == "/dev/ttyUSB9" then some "/dev/ttyUSB0" else none,
    hw := hwOk }

/-- The state after the timer armed by the removal of token A has expired. -/
def afterExpiry : ManagerState :=
  timerExpires afterRemoval

/-- A scan event carrying a read error. -/
def errorScan (source : String) (t : Option Token) (e : String) : Event :=
  .scan { Source := source, Token := t, Error := some e }

/-- The environment `envExit` at the clock reading `now` (nanoseconds). -/
def envAt (now : Nat) : Env :=
  { envExit with now := now }

/-- An environment in which the launcher is disabled. -/
def envDisabled : Env :=
  { now := 0, shouldStopService := false, exit := exitInputsPermissive true }

/-- An input that is neither a removal nor a scan of a token other than `T`:
an error scan, a scan of a token with the UID and Text of `T`, a software
notification, or the timer expiring. -/
def Input.noNewToken (T : Token) : Input → Bool
  | .event _ (.scan sc) =>
    sc.Error.isSome ||
      (match sc.Token with
       | some tok => tok.UID == T.UID && tok.Text == T.Text
       | none => false)
  | .event _ (.software _) => true
  | .expire => true

/-- A poll that finds no target. -/
def pollNoTarget : Poll :=
  { now := 0, inListPassiveTarget := .ok none, readNtag := .error "no tag" }

/-- The error counter after a poll, by the answer of the passive-target query
alone: one more after a protocol error, the same after "no target", zero after
a target. -/
def errorsAfter (n : Nat) (o : Poll) : Nat :=
  match o.inListPassiveTarget with
  | .error _ => n + 1
  | .ok none => n
  | .ok (some _) => 0

/-- Whether the counter, starting at `n` and following `errorsAfter`, stands at
`maxErrors` or more at one of the loop conditions met along the polls. -/
def budgetSpent : Nat → List Poll → Bool
  | n, [] => decide (n ≥ maxErrors)
  | n, o :: os => if n ≥ maxErrors then true else budgetSpent (errorsAfter n o) os

/-- The poll reports a target. -/
def Poll.hasTarget (o : Poll) : Bool :=
  match o.inListPassiveTarget with
  | .ok (some _) => true
  | _ => false

/-- No two removal scans follow one another in the list. -/
def noDoubleRemoval : List Scan → Bool
  | a :: b :: rest => !(a.Token.isNone && b.Token.isNone) && noDoubleRemoval (b :: rest)
  | _ => true

/-- The last scan of the list is a removal. -/
def lastIsRemoval : List Scan → Bool
  | [] => false
  | [a] => a.Token.isNone
  | _ :: b :: rest => lastIsRemoval (b :: rest)

/-- The first scan of the list is a removal. -/
def firstIsRemoval : List Scan → Bool
  | [] => false
  | a :: _ => a.Token.isNone

/-- A host with two serial ports, the first of which cannot be opened. -/
def busyEnv : DetectEnv :=
  { goos := "linux", ports := ["/dev/ttyUSB0", "/dev/ttyUSB1"], resolve := fun _ => none,
    hw := { hwOk with
      openError := fun name => if name == "/dev/ttyUSB0" then some "Serial port busy" else none } }

/-- A host with two serial ports, the first of which opens but does not answer
the handshake. -/
def silentEnv : DetectEnv :=
  { goos := "linux", ports := ["/dev/ttyUSB0", "/dev/ttyUSB1"], resolve := fun _ => none,
    hw := { hwOk with
      samConfigurationError := fun name =>
        if name == "/dev/ttyUSB0" then some "no ACK" else none } }

/-- The three tests of `Detect` against the exclusion list: the spec is in it,
the symlink test fires, or one of its entries ends in a colon and the name. -/
def excluded (env : DetectEnv) (connected : List String) (name : String) : Bool :=
  Contains connected ("pn532_uart:" ++ name) || skipResolved env connected name ||
    connected.any (fun connDev => HasSuffix connDev (":" ++ name))

/-- A host with two serial ports, neither of which answers the handshake. -/
def deadEnv : DetectEnv :=
  { goos := "linux", ports := ["/dev/ttyUSB0", "/dev/ttyUSB1"], resolve := fun _ => none,
    hw := { hwOk with samConfigurationError := fun _ => some "no ACK" } }

/-! ## Properties of token comparison and of the exit policy -/

theorem cmpTokens_none_left (b : Option Token) : cmpTokens none b = false := by
  cases b <;> rfl

theorem cmpTokens_none_right (a : Option Token) : cmpTokens a none = false := by
  cases a <;> rfl

theorem cmpTokens_some (x y : Token) :
    cmpTokens (some x) (some y) = true ↔ x.UID = y.UID ∧ x.Text = y.Text := by
  simp [cmpTokens]

theorem cmpTokens_congr_left (x y : Token) (b : Option Token)
    (hu : x.UID = y.UID) (ht : x.Text = y.Text) :
    cmpTokens (some x) b = cmpTokens (some y) b := by
  cases b <;> simp [cmpTokens, hu, ht]

/-- C5. `shouldExit` answers false as soon as one of these holds, whatever the
other inputs are: exit-on-removal is off, there is no active launcher, the last
scanned token came from the API, the active launcher is in the exit blocklist. -/
theorem shouldExit_negative_cases (x : ExitInputs)
    (h : x.exitGame = false ∨ x.activeLauncher = "" ∨ x.lastScanned.FromApi = true ∨
      x.activeLauncher ∈ x.exitGameBlocklist) :
    shouldExit x = false := by
  unfold shouldExit inExitGameBlocklist
  rcases h with h | h | h | h
  · simp [h]
  · simp [h]
  · simp [h]
  · simp [h]

/-- Each of the four conditions of C5 on its own, the other inputs permissive. -/
theorem shouldExit_negative_cases_witness :
    shouldExit { exitInputsPermissive false with exitGame := false } = false ∧
    shouldExit { exitInputsPermissive false with activeLauncher := "" } = false ∧
    shouldExit { exitInputsPermissive false with
      lastScanned := { Token.empty with FromApi := true } } = false ∧
    shouldExit { exitInputsPermissive false with exitGameBlocklist := ["Genesis"] } = false :=
  ⟨shouldExit_negative_cases _ (Or.inl rfl),
   shouldExit_negative_cases _ (Or.inr (Or.inl rfl)),
   shouldExit_negative_cases _ (Or.inr (Or.inr (Or.inl rfl))),
   shouldExit_negative_cases _ (Or.inr (Or.inr (Or.inr (by decide))))⟩

/-- C6, as stated, fails: with exit-on-removal on, a launcher running, a token
that was not scanned through the API and an empty blocklist, `shouldExit` still
answers false when the launcher-disabled flag is set. -/
theorem shouldExit_not_only_four :
    (exitInputsPermissive true).exitGame = true ∧
    (exitInputsPermissive true).activeLauncher ≠ "" ∧
    (exitInputsPermissive true).lastScanned.FromApi = false ∧
    (exitInputsPermissive true).activeLauncher ∉ (exitInputsPermissive true).exitGameBlocklist ∧
    shouldExit (exitInputsPermissive true) = false := by
  decide

/-- C6, amended. `shouldExit` answers true exactly when exit-on-removal is on,
the active launcher is not empty, the last scanned token did not come from the
API, the launcher is not disabled, and the active launcher is not in the exit
blocklist. -/
theorem shouldExit_iff (x : ExitInputs) :
    shouldExit x = true ↔
      x.exitGame = true ∧ x.activeLauncher ≠ "" ∧ x.lastScanned.FromApi = false ∧
      x.launcherDisabled = false ∧ x.activeLauncher ∉ x.exitGameBlocklist := by
  unfold shouldExit inExitGameBlocklist
  cases hg : x.exitGame <;> cases hf : x.lastScanned.FromApi <;>
    cases hd : x.launcherDisabled <;> by_cases hl : x.activeLauncher = "" <;>
    by_cases hb : x.activeLauncher ∈ x.exitGameBlocklist <;> simp [hl, hb]

/-! ## Properties of the reader manager -/

theorem processScan_duplicate (env : Env) (scan : Option Token) (s : ManagerState)
    (h : cmpTokens scan s.prevToken = true) : processScan env scan s = s := by
  simp [processScan, h]

/-- A token that passes debounce while the launcher is enabled and no timer is
waiting is sent to the launch queue; the timer is left as it is. -/
theorem processScan_send (env : Env) (T : Token) (s : ManagerState)
    (hl : env.exit.launcherDisabled = false) (ht : s.noTimerArmed)
    (hp : cmpTokens (some T) s.prevToken = false) :
    processScan env (some T) s =
      { s with prevToken := some T, launchQueue := s.launchQueue ++ [T],
               effects := s.effects ++
                 (match s.exitTimer with
                  | some t => [.timerStop t.id false]
                  | none => []) ++ [.playSuccessSound, .enqueue T] } := by
  unfold processScan
  simp only [hp, hl]
  cases hx : s.exitTimer with
  | none => simp [ManagerState.emit]
  | some t =>
    have hnp : t.status ≠ .pending := ht t hx
    cases hs : t.status with
    | pending => exact absurd hs hnp
    | fired =>
      have : t.Stop = (false, t) := by simp [Timer.Stop, hs]
      simp [ManagerState.emit, this]
    | stopped =>
      have : t.Stop = (false, t) := by simp [Timer.Stop, hs]
      simp [ManagerState.emit, this]

/-- C1. In a state whose previous token differs from `T` and whose timer, if
any, is not waiting, with the launcher enabled, a scan of `T` immediately
followed by a scan of a token with the same UID and Text puts exactly one
token, `T`, on the launch queue; the second scan changes nothing at all. -/
theorem debounce_idempotent (e1 e2 : Env) (src1 src2 : String) (T T2 : Token)
    (s : ManagerState)
    (hs1 : e1.shouldStopService = false) (hs2 : e2.shouldStopService = false)
    (hl : e1.exit.launcherDisabled = false) (ht : s.noTimerArmed)
    (hp : cmpTokens (some T) s.prevToken = false)
    (hu : T2.UID = T.UID) (hx : T2.Text = T.Text) :
    (readerManager [.event e1 (scanOf src1 (some T)), .event e2 (scanOf src2 (some T2))] s).launchQueue
        = s.launchQueue ++ [T] ∧
      readerManager [.event e1 (scanOf src1 (some T)), .event e2 (scanOf src2 (some T2))] s
        = readerManager [.event e1 (scanOf src1 (some T))] s := by
  have h1 := processScan_send e1 T s hl ht hp
  have hdup : cmpTokens (some T2) (processScan e1 (some T) s).prevToken = true := by
    rw [h1]
    simp [cmpTokens, hu, hx]
  have h2 := processScan_duplicate e2 (some T2) _ hdup
  simp only [readerManager, readerManagerStep, scanOf, hs1, hs2, h2]
  simp [h1]

theorem debounce_idempotent_witness :
    (readerManager [.event envExit (scanOf "r" (some tokenA)),
        .event envExit (scanOf "r" (some { tokenA with ScanTime := 7 }))]
        ManagerState.init).launchQueue = ManagerState.init.launchQueue ++ [tokenA] ∧
      readerManager [.event envExit (scanOf "r" (some tokenA)),
        .event envExit (scanOf "r" (some { tokenA with ScanTime := 7 }))] ManagerState.init
        = readerManager [.event envExit (scanOf "r" (some tokenA))] ManagerState.init :=
  debounce_idempotent envExit envExit "r" "r" tokenA { tokenA with ScanTime := 7 }
    ManagerState.init rfl rfl rfl (by decide) rfl rfl rfl

theorem startTimedExit_eq (env : Env) (s : ManagerState) :
    startTimedExit env s =
      { s with exitTimer := some { id := s.nextTimerId, status := .pending },
               nextTimerId := s.nextTimerId + 1,
               effects := s.effects ++ stopLog s.exitTimer ++
                 [.timerNew s.nextTimerId env.exit.exitGameDelay] } := by
  unfold startTimedExit stopLog
  cases s.exitTimer <;> simp [ManagerState.emit]

/-- A removal scan is never a duplicate: it always runs the removal branch. -/
theorem processScan_removal (env : Env) (s : ManagerState) :
    processScan env none s =
      if shouldExit env.exit then
        { s with prevToken := none,
                 exitTimer := some { id := s.nextTimerId, status := .pending },
                 nextTimerId := s.nextTimerId + 1,
                 effects := s.effects ++ [.setActiveCard Token.empty, .shouldExitCalled true] ++
                   stopLog s.exitTimer ++ [.timerNew s.nextTimerId env.exit.exitGameDelay] }
      else
        { s with prevToken := none,
                 effects := s.effects ++ [.setActiveCard Token.empty, .shouldExitCalled false] } := by
  unfold processScan
  simp only [cmpTokens_none_left]
  cases hb : shouldExit env.exit <;> simp [startTimedExit_eq, ManagerState.emit]

/-- C2, as stated, fails: after a first removal scan the previous token is
absent, yet a second removal scan clears the active card again, evaluates
`shouldExit` again, stops the timer armed by the first and arms a new one. -/
theorem second_removal_not_noop :
    afterRemoval.prevToken = none ∧
    afterRemoval.exitTimer = some { id := 0, status := .pending } ∧
    (readerManagerStep envExit (scanOf "r" none) afterRemoval).effects =
      afterRemoval.effects ++
        [.setActiveCard Token.empty, .shouldExitCalled true, .timerStop 0 true, .timerNew 1 3] ∧
    (readerManagerStep envExit (scanOf "r" none) afterRemoval).exitTimer =
      some { id := 1, status := .pending } := by
  decide

/-- C2, amended. When two removal scans are processed in succession, the second
is not discarded: it leaves the previous token absent and the software token
and the launch queue as they are, calls `SetActiveCard` with the empty token
again and evaluates `shouldExit` again; when `shouldExit` answers false the
timer is untouched, and when it answers true the timer held so far is stopped
and a new one is armed. -/
theorem second_removal_runs_again (e1 e2 : Env) (src1 src2 : String) (s : ManagerState) :
    (readerManagerStep e1 (scanOf src1 none) s).prevToken = none ∧
    (readerManagerStep e2 (scanOf src2 none) (readerManagerStep e1 (scanOf src1 none) s)).prevToken
      = none ∧
    (readerManagerStep e2 (scanOf src2 none) (readerManagerStep e1 (scanOf src1 none) s)).softwareToken
      = (readerManagerStep e1 (scanOf src1 none) s).softwareToken ∧
    (readerManagerStep e2 (scanOf src2 none) (readerManagerStep e1 (scanOf src1 none) s)).launchQueue
      = (readerManagerStep e1 (scanOf src1 none) s).launchQueue ∧
    (readerManagerStep e2 (scanOf src2 none) (readerManagerStep e1 (scanOf src1 none) s)).exitTimer
      = (if shouldExit e2.exit then
          some { id := (readerManagerStep e1 (scanOf src1 none) s).nextTimerId, status := .pending }
        else (readerManagerStep e1 (scanOf src1 none) s).exitTimer) ∧
    (readerManagerStep e2 (scanOf src2 none) (readerManagerStep e1 (scanOf src1 none) s)).effects
      = (readerManagerStep e1 (scanOf src1 none) s).effects ++
        [.setActiveCard Token.empty, .shouldExitCalled (shouldExit e2.exit)] ++
        (if shouldExit e2.exit then
          stopLog (readerManagerStep e1 (scanOf src1 none) s).exitTimer ++
            [.timerNew (readerManagerStep e1 (scanOf src1 none) s).nextTimerId
              e2.exit.exitGameDelay]
        else []) := by
  have step : ∀ (e : Env) (src : String) (u : ManagerState),
      readerManagerStep e (scanOf src none) u = processScan e none u := by
    intro e src u; rfl
  simp only [step]
  have h1 : (processScan e1 none s).prevToken = none := by
    rw [processScan_removal]; split <;> rfl
  refine ⟨h1, ?_⟩
  generalize processScan e1 none s = s1
  rw [processScan_removal]
  cases hb : shouldExit e2.exit <;> simp

/-- C3, as stated, fails: from the initial state (no software token), with the
launcher enabled and `shouldExit` answering true, the scans A, removal, A put A
on the launch queue twice; the second A stops the timer armed by the removal,
arms a new one and is forwarded. -/
theorem reinsertion_without_software_token_relaunches :
    (readerManager [.event envExit (scanOf "r" (some tokenA)), .event envExit (scanOf "r" none)]
        ManagerState.init).exitTimer = some { id := 0, status := .pending } ∧
    (readerManager [.event envExit (scanOf "r" (some tokenA)), .event envExit (scanOf "r" none),
        .event envExit (scanOf "r" (some tokenA))] ManagerState.init).launchQueue
      = [tokenA, tokenA] ∧
    (readerManager [.event envExit (scanOf "r" (some tokenA)), .event envExit (scanOf "r" none),
        .event envExit (scanOf "r" (some tokenA))] ManagerState.init).exitTimer
      = some { id := 1, status := .pending } := by
  decide

/-- C3, amended. From a state with no previous token and no timer whose
software token has the UID and Text of A, with the launcher enabled and
`shouldExit` answering true at the removal, the scans A, removal, A (the timer
not firing in between) end with the timer armed by the removal stopped and no
new timer, the launch queue holding exactly one token, A, and the software
token unchanged; the second A adds only the call that stops the timer. -/
theorem reinsertion_suppressed (e1 e2 e3 : Env) (src1 src2 src3 : String) (A S : Token)
    (h1 : e1.shouldStopService = false) (h2 : e2.shouldStopService = false)
    (h3 : e3.shouldStopService = false)
    (hl1 : e1.exit.launcherDisabled = false) (hx : shouldExit e2.exit = true)
    (hl3 : e3.exit.launcherDisabled = false)
    (hS : cmpTokens (some A) (some S) = true) :
    (readerManager [.event e1 (scanOf src1 (some A)), .event e2 (scanOf src2 none)]
        { ManagerState.init with softwareToken := some S }).exitTimer
      = some { id := 0, status := .pending } ∧
    (readerManager [.event e1 (scanOf src1 (some A)), .event e2 (scanOf src2 none),
        .event e3 (scanOf src3 (some A))]
        { ManagerState.init with softwareToken := some S }).exitTimer
      = some { id := 0, status := .stopped } ∧
    (readerManager [.event e1 (scanOf src1 (some A)), .event e2 (scanOf src2 none),
        .event e3 (scanOf src3 (some A))]
        { ManagerState.init with softwareToken := some S }).launchQueue = [A] ∧
    (readerManager [.event e1 (scanOf src1 (some A)), .event e2 (scanOf src2 none),
        .event e3 (scanOf src3 (some A))]
        { ManagerState.init with softwareToken := some S }).softwareToken = some S ∧
    (readerManager [.event e1 (scanOf src1 (some A)), .event e2 (scanOf src2 none),
        .event e3 (scanOf src3 (some A))]
        { ManagerState.init with softwareToken := some S }).effects
      = (readerManager [.event e1 (scanOf src1 (some A)), .event e2 (scanOf src2 none)]
          { ManagerState.init with softwareToken := some S }).effects ++ [.timerStop 0 true] := by
  have hA := processScan_send e1 A { ManagerState.init with softwareToken := some S } hl1
    (by intro t ht; simp [ManagerState.init] at ht) (by simp [ManagerState.init, cmpTokens])
  simp only [readerManager, readerManagerStep, scanOf, h1, h2, h3, hA, processScan_removal, hx]
  simp [processScan, cmpTokens_none_right, hl3, Timer.Stop, ManagerState.emit, hS,
    ManagerState.init, stopLog]

theorem reinsertion_suppressed_witness :
    (readerManager [.event envExit (scanOf "r" (some tokenA)), .event envExit (scanOf "r" none)]
        { ManagerState.init with softwareToken := some tokenA }).exitTimer
      = some { id := 0, status := .pending } ∧
    (readerManager [.event envExit (scanOf "r" (some tokenA)), .event envExit (scanOf "r" none),
        .event envExit (scanOf "r" (some tokenA))]
        { ManagerState.init with softwareToken := some tokenA }).exitTimer
      = some { id := 0, status := .stopped } ∧
    (readerManager [.event envExit (scanOf "r" (some tokenA)), .event envExit (scanOf "r" none),
        .event envExit (scanOf "r" (some tokenA))]
        { ManagerState.init with softwareToken := some tokenA }).launchQueue = [tokenA] ∧
    (readerManager [.event envExit (scanOf "r" (some tokenA)), .event envExit (scanOf "r" none),
        .event envExit (scanOf "r" (some tokenA))]
        { ManagerState.init with softwareToken := some tokenA }).softwareToken = some tokenA ∧
    (readerManager [.event envExit (scanOf "r" (some tokenA)), .event envExit (scanOf "r" none),
        .event envExit (scanOf "r" (some tokenA))]
        { ManagerState.init with softwareToken := some tokenA }).effects
      = (readerManager [.event envExit (scanOf "r" (some tokenA)), .event envExit (scanOf "r" none)]
          { ManagerState.init with softwareToken := some tokenA }).effects ++
        [.timerStop 0 true] :=
  reinsertion_suppressed envExit envExit envExit "r" "r" "r" tokenA tokenA
    rfl rfl rfl rfl (by decide) rfl (by decide)

/-- C4. After a removal scan at which `shouldExit` answered true (so the timer
it armed is waiting), a scan of a present token B that differs from the
software token, with the launcher enabled, stops that timer (`Stop` answers
true), arms a new timer, which is left waiting, and puts B on the launch
queue. -/
theorem replacement_restarts_timer (e1 e2 : Env) (src1 src2 : String) (B : Token)
    (s : ManagerState)
    (hx : shouldExit e1.exit = true) (hl : e2.exit.launcherDisabled = false)
    (hB : cmpTokens (some B) s.softwareToken = false) :
    (readerManagerStep e1 (scanOf src1 none) s).exitTimer
      = some { id := s.nextTimerId, status := .pending } ∧
    (readerManagerStep e2 (scanOf src2 (some B)) (readerManagerStep e1 (scanOf src1 none) s)).effects
      = (readerManagerStep e1 (scanOf src1 none) s).effects ++
        [.timerStop s.nextTimerId true, .timerStop s.nextTimerId false,
         .timerNew (s.nextTimerId + 1) e2.exit.exitGameDelay, .playSuccessSound, .enqueue B] ∧
    (readerManagerStep e2 (scanOf src2 (some B)) (readerManagerStep e1 (scanOf src1 none) s)).launchQueue
      = s.launchQueue ++ [B] ∧
    (readerManagerStep e2 (scanOf src2 (some B)) (readerManagerStep e1 (scanOf src1 none) s)).exitTimer
      = some { id := s.nextTimerId + 1, status := .pending } := by
  simp only [readerManagerStep, scanOf, processScan_removal, hx]
  simp [processScan, cmpTokens_none_right, hl, Timer.Stop, ManagerState.emit, hB,
    startTimedExit_eq, stopLog]

theorem replacement_restarts_timer_witness :
    (readerManagerStep envExit (scanOf "r" none) afterInsert).exitTimer
      = some { id := afterInsert.nextTimerId, status := .pending } ∧
    (readerManagerStep envExit (scanOf "r" (some tokenB))
        (readerManagerStep envExit (scanOf "r" none) afterInsert)).effects
      = (readerManagerStep envExit (scanOf "r" none) afterInsert).effects ++
        [.timerStop afterInsert.nextTimerId true, .timerStop afterInsert.nextTimerId false,
         .timerNew (afterInsert.nextTimerId + 1) envExit.exit.exitGameDelay,
         .playSuccessSound, .enqueue tokenB] ∧
    (readerManagerStep envExit (scanOf "r" (some tokenB))
        (readerManagerStep envExit (scanOf "r" none) afterInsert)).launchQueue
      = afterInsert.launchQueue ++ [tokenB] ∧
    (readerManagerStep envExit (scanOf "r" (some tokenB))
        (readerManagerStep envExit (scanOf "r" none) afterInsert)).exitTimer
      = some { id := afterInsert.nextTimerId + 1, status := .pending } :=
  replacement_restarts_timer envExit envExit "r" "r" tokenB afterInsert
    (by decide) rfl (by decide)

/-! ## Properties of the poll loop -/

theorem connect_port_of_ok (hw : SerialEnv) (name : String) (port : Option Port)
    (h : connect hw name = (port, none)) :
    port = some { name := name, closeError := hw.closeError name, closeCalls := 0 } := by
  unfold connect at h
  repeat' split at h
  all_goals simp_all

/-- The goroutine started by `Open` begins with a polling reader on the port
that `connect` returned, no error counted and nothing sent. -/
theorem Open_loop (goos : String) (statError : String → Option String) (hw : SerialEnv)
    (device : String) (r0 : Pn532UartReader) (st0 : PollState)
    (h : (Pn532UartReader.Open goos statError hw device r0).loop = some st0) :
    st0 = PollState.start (Pn532UartReader.Open goos statError hw device r0).reader ∧
    (Pn532UartReader.Open goos statError hw device r0).err = none ∧
    st0.r.polling = true ∧ (∃ p : Port, st0.r.port = some p) ∧
    st0.r.device = device ∧ st0.r.lastToken = r0.lastToken := by
  unfold Pn532UartReader.Open at h ⊢
  split at h
  · split at h
    · cases h
    · split at h
      · cases h
      · split at h
        · cases h
        · cases h
        · rename_i port hc
          have hp := connect_port_of_ok hw _ port hc
          injection h with h
          subst h
          simp [*, PollState.start]
  · cases h

theorem pollLoop_unfold (P : List (Fin 256) → Except String String) (ins : List PollInput)
    (st : PollState) :
    pollLoop P ins st =
      if st.exited then st
      else if !st.r.polling then { st with exited := true }
      else if st.errors ≥ maxErrors then
        { st with r := { st.r.Close.2 with polling := false }, exited := true }
      else
        match ins with
        | [] => st
        | .poll o :: rest => pollLoop P rest (pollBody P o st)
        | .close :: rest => pollLoop P rest { st with r := st.r.Close.2 } := by
  cases ins with
  | nil => simp [pollLoop]
  | cons x xs => cases x <;> simp [pollLoop]

theorem pollLoop_exited (P : List (Fin 256) → Except String String) (ins : List PollInput)
    (st : PollState) (h : st.exited = true) : pollLoop P ins st = st := by
  rw [pollLoop_unfold]; simp [h]

theorem pollLoop_stopped (P : List (Fin 256) → Except String String) (ins : List PollInput)
    (st : PollState) (he : ¬st.exited = true) (hp : ¬st.r.polling = true) :
    pollLoop P ins st = { st with exited := true } := by
  rw [pollLoop_unfold]; simp [he, hp]

theorem pollLoop_budget (P : List (Fin 256) → Except String String) (ins : List PollInput)
    (st : PollState) (he : ¬st.exited = true) (hp : st.r.polling = true)
    (hm : st.errors ≥ maxErrors) :
    pollLoop P ins st
      = { st with r := { st.r.Close.2 with polling := false }, exited := true } := by
  rw [pollLoop_unfold]; simp [he, hp, hm]

theorem pollLoop_poll (P : List (Fin 256) → Except String String) (o : Poll)
    (rest : List PollInput) (st : PollState) (he : ¬st.exited = true)
    (hp : st.r.polling = true) (hm : ¬st.errors ≥ maxErrors) :
    pollLoop P (.poll o :: rest) st = pollLoop P rest (pollBody P o st) := by
  rw [pollLoop_unfold]; simp [he, hp, hm]

theorem pollLoop_close (P : List (Fin 256) → Except String String)
    (rest : List PollInput) (st : PollState) (he : ¬st.exited = true)
    (hp : st.r.polling = true) (hm : ¬st.errors ≥ maxErrors) :
    pollLoop P (.close :: rest) st = pollLoop P rest { st with r := st.r.Close.2 } := by
  rw [pollLoop_unfold]; simp [he, hp, hm]

theorem pollLoop_nil (P : List (Fin 256) → Except String String) (st : PollState)
    (he : ¬st.exited = true) (hp : st.r.polling = true) (hm : ¬st.errors ≥ maxErrors) :
    pollLoop P [] st = st := by
  rw [pollLoop_unfold]; simp [he, hp, hm]

/-- Running the loop on a sequence of inputs is running it on a first part and
then on the rest. -/
theorem pollLoop_append (P : List (Fin 256) → Except String String) (xs ys : List PollInput)
    (st : PollState) : pollLoop P (xs ++ ys) st = pollLoop P ys (pollLoop P xs st) := by
  induction xs generalizing st with
  | nil =>
    by_cases he : st.exited = true
    · simp [pollLoop_exited, he]
    · by_cases hp : st.r.polling = true
      · by_cases hm : st.errors ≥ maxErrors
        · rw [List.nil_append, pollLoop_budget P _ st he hp hm, pollLoop_budget P _ st he hp hm,
            pollLoop_exited]
          rfl
        · rw [List.nil_append, pollLoop_nil P st he hp hm]
      · rw [List.nil_append, pollLoop_stopped P _ st he hp, pollLoop_stopped P _ st he hp,
          pollLoop_exited]
        rfl
  | cons x xs ih =>
    by_cases he : st.exited = true
    · simp [pollLoop_exited, he]
    · by_cases hp : st.r.polling = true
      · by_cases hm : st.errors ≥ maxErrors
        · rw [pollLoop_budget P _ st he hp hm, pollLoop_budget P _ st he hp hm, pollLoop_exited]
          rfl
        · cases x with
          | poll o =>
            rw [List.cons_append, pollLoop_poll P o _ st he hp hm, pollLoop_poll P o _ st he hp hm,
              ih]
          | close =>
            rw [List.cons_append, pollLoop_close P _ st he hp hm, pollLoop_close P _ st he hp hm,
              ih]
      · rw [pollLoop_stopped P _ st he hp, pollLoop_stopped P _ st he hp, pollLoop_exited]
        rfl

/-- A failed passive-target query only counts one more error. -/
theorem pollBody_failed (P : List (Fin 256) → Except String String) (o : Poll)
    (st : PollState) (h : o.failed = true) :
    pollBody P o st = { st with errors := st.errors + 1 } := by
  unfold Poll.failed at h
  unfold pollBody
  split at h
  · rename_i e he
    simp [he]
  · cases h

/-- Failed polls send nothing, whether or not the loop gives up meanwhile. -/
theorem pollLoop_failed_sent (P : List (Fin 256) → Except String String) (errs : List Poll)
    (h : ∀ o ∈ errs, o.failed = true) (st : PollState) :
    (pollLoop P (errs.map .poll) st).sent = st.sent := by
  induction errs generalizing st with
  | nil =>
    by_cases he : st.exited = true
    · rw [pollLoop_exited P _ st he]
    · by_cases hp : st.r.polling = true
      · by_cases hm : st.errors ≥ maxErrors
        · rw [pollLoop_budget P _ st he hp hm]
        · rw [List.map_nil, pollLoop_nil P st he hp hm]
      · rw [pollLoop_stopped P _ st he hp]
  | cons o os ih =>
    by_cases he : st.exited = true
    · rw [pollLoop_exited P _ st he]
    · by_cases hp : st.r.polling = true
      · by_cases hm : st.errors ≥ maxErrors
        · rw [pollLoop_budget P _ st he hp hm]
        · rw [List.map_cons, pollLoop_poll P o _ st he hp hm,
            ih (fun x hx => h x (List.mem_cons_of_mem _ hx)),
            pollBody_failed P o st (h o (List.mem_cons_self _ _))]
      · rw [pollLoop_stopped P _ st he hp]

/-- Enough failed polls in a row make the goroutine return. -/
theorem pollLoop_failed_exits (P : List (Fin 256) → Except String String) (errs : List Poll)
    (h : ∀ o ∈ errs, o.failed = true) (st : PollState)
    (hn : maxErrors ≤ st.errors + errs.length) :
    (pollLoop P (errs.map .poll) st).exited = true := by
  induction errs generalizing st with
  | nil =>
    by_cases he : st.exited = true
    · rw [pollLoop_exited P _ st he]; exact he
    · by_cases hp : st.r.polling = true
      · have hm : st.errors ≥ maxErrors := by simpa using hn
        rw [pollLoop_budget P _ st he hp hm]
      · rw [pollLoop_stopped P _ st he hp]
  | cons o os ih =>
    by_cases he : st.exited = true
    · rw [pollLoop_exited P _ st he]; exact he
    · by_cases hp : st.r.polling = true
      · by_cases hm : st.errors ≥ maxErrors
        · rw [pollLoop_budget P _ st he hp hm]
        · rw [List.map_cons, pollLoop_poll P o _ st he hp hm]
          apply ih (fun x hx => h x (List.mem_cons_of_mem _ hx))
          rw [pollBody_failed P o st (h o (List.mem_cons_self _ _))]
          simp only [List.length_cons] at hn
          show maxErrors ≤ st.errors + 1 + os.length
          omega
      · rw [pollLoop_stopped P _ st he hp]

theorem pollToken_frame (P : List (Fin 256) → Except String String) (o : Poll)
    (tgt : Target) (td : TagData) (st : PollState) :
    (pollToken P o tgt td st).r.port = st.r.port ∧
    (pollToken P o tgt td st).r.polling = st.r.polling ∧
    (pollToken P o tgt td st).exited = st.exited := by
  unfold pollToken
  dsimp only
  split <;> exact ⟨rfl, rfl, rfl⟩

/-- The loop body touches neither the port nor the polling flag. -/
theorem pollBody_frame (P : List (Fin 256) → Except String String) (o : Poll)
    (st : PollState) :
    (pollBody P o st).r.port = st.r.port ∧ (pollBody P o st).r.polling = st.r.polling ∧
    (pollBody P o st).exited = st.exited := by
  unfold pollBody
  split
  · exact ⟨rfl, rfl, rfl⟩
  · split <;> exact ⟨rfl, rfl, rfl⟩
  · dsimp only
    split
    · exact ⟨rfl, rfl, rfl⟩
    · split
      · split
        · exact ⟨rfl, rfl, rfl⟩
        · exact pollToken_frame P o _ _ _
      · split
        · exact ⟨rfl, rfl, rfl⟩
        · exact pollToken_frame P o _ _ _

theorem Close_sound (st : PollState) (h : st.sound) :
    ∃ p : Port, st.r.Close.2.port = some p ∧ 0 < p.closeCalls := by
  obtain ⟨⟨p, hp, _⟩, _⟩ := h
  refine ⟨p.Close.2, ?_, ?_⟩
  · simp [Pn532UartReader.Close, hp]
  · simp [Port.Close]

theorem pollLoop_sound (P : List (Fin 256) → Except String String) (ins : List PollInput)
    (st : PollState) (h : st.sound) : (pollLoop P ins st).sound := by
  induction ins generalizing st with
  | nil =>
    by_cases he : st.exited = true
    · rw [pollLoop_exited P _ st he]; exact h
    · by_cases hp : st.r.polling = true
      · by_cases hm : st.errors ≥ maxErrors
        · rw [pollLoop_budget P _ st he hp hm]
          obtain ⟨p, hp1, hp2⟩ := Close_sound st h
          exact ⟨⟨p, hp1, fun _ => hp2⟩, fun _ => rfl⟩
        · rw [pollLoop_nil P st he hp hm]; exact h
      · rw [pollLoop_stopped P _ st he hp]
        exact ⟨h.1, fun _ => by simpa using hp⟩
  | cons x xs ih =>
    by_cases he : st.exited = true
    · rw [pollLoop_exited P _ st he]; exact h
    · by_cases hp : st.r.polling = true
      · by_cases hm : st.errors ≥ maxErrors
        · rw [pollLoop_budget P _ st he hp hm]
          obtain ⟨p, hp1, hp2⟩ := Close_sound st h
          exact ⟨⟨p, hp1, fun _ => hp2⟩, fun _ => rfl⟩
        · cases x with
          | poll o =>
            rw [pollLoop_poll P o _ st he hp hm]
            apply ih
            obtain ⟨h1, h2, h3⟩ := pollBody_frame P o st
            unfold PollState.sound
            rw [h1, h2, h3]
            exact h
          | close =>
            rw [pollLoop_close P _ st he hp hm]
            apply ih
            obtain ⟨p, hp1, hp2⟩ := Close_sound st h
            refine ⟨⟨p, hp1, fun _ => hp2⟩, fun hx => ?_⟩
            exact absurd hx he
      · rw [pollLoop_stopped P _ st he hp]
        exact ⟨h.1, fun _ => by simpa using hp⟩

/-- C7. For a reader whose `Open` succeeded and any inputs of the poll loop,
once five consecutive passive-target queries have failed the goroutine has
returned, `Close` has been called on the port, `Connected` is false, the five
failures sent nothing, and whatever comes next changes nothing: `Connected`
stays false and no further scan is sent. -/
theorem error_budget_self_disconnect (P : List (Fin 256) → Except String String)
    (goos : String) (statError : String → Option String) (hw : SerialEnv) (device : String)
    (r0 : Pn532UartReader) (st0 : PollState)
    (hopen : (Pn532UartReader.Open goos statError hw device r0).loop = some st0)
    (pre rest : List PollInput) (errs : List Poll)
    (hlen : errs.length = 5) (herr : ∀ o ∈ errs, o.failed = true) :
    (pollLoop P (pre ++ errs.map .poll) st0).exited = true ∧
    (pollLoop P (pre ++ errs.map .poll) st0).r.Connected = false ∧
    (∃ p : Port, (pollLoop P (pre ++ errs.map .poll) st0).r.port = some p ∧ 0 < p.closeCalls) ∧
    (pollLoop P (pre ++ errs.map .poll) st0).sent = (pollLoop P pre st0).sent ∧
    pollLoop P (pre ++ errs.map .poll ++ rest) st0 = pollLoop P (pre ++ errs.map .poll) st0 := by
  obtain ⟨-, -, hpoll, ⟨p0, hport⟩, -, -⟩ := Open_loop goos statError hw device r0 st0 hopen
  have hst0 : st0.exited = false := by
    have h := (Open_loop goos statError hw device r0 st0 hopen).1
    rw [h]; rfl
  have hstart : st0.sound := by
    refine ⟨⟨p0, hport, fun hf => ?_⟩, fun hf => ?_⟩
    · rw [hpoll] at hf
      cases hf
    · rw [hst0] at hf
      cases hf
  have hsound := pollLoop_sound P (pre ++ errs.map .poll) _ hstart
  have hex : (pollLoop P (pre ++ errs.map .poll) st0).exited = true := by
    rw [pollLoop_append]
    apply pollLoop_failed_exits P errs herr
    rw [hlen]
    show 5 ≤ _
    omega
  have hpol := hsound.2 hex
  obtain ⟨p, hp1, hp2⟩ := hsound.1
  refine ⟨hex, ?_, ⟨p, hp1, hp2 hpol⟩, ?_, ?_⟩
  · simp [Pn532UartReader.Connected, hpol]
  · rw [pollLoop_append, pollLoop_failed_sent P errs herr]
  · rw [pollLoop_append P (pre ++ errs.map PollInput.poll) rest, pollLoop_exited P rest _ hex]

theorem error_budget_self_disconnect_witness :
    (pollLoop parseNothing ([.poll pollNtag] ++
        [pollFailed, pollFailed, pollFailed, pollFailed, pollFailed].map .poll)
        (PollState.start readerOpened)).exited = true ∧
    (pollLoop parseNothing ([.poll pollNtag] ++
        [pollFailed, pollFailed, pollFailed, pollFailed, pollFailed].map .poll)
        (PollState.start readerOpened)).r.Connected = false ∧
    (∃ p : Port, (pollLoop parseNothing ([.poll pollNtag] ++
        [pollFailed, pollFailed, pollFailed, pollFailed, pollFailed].map .poll)
        (PollState.start readerOpened)).r.port = some p ∧ 0 < p.closeCalls) ∧
    (pollLoop parseNothing ([.poll pollNtag] ++
        [pollFailed, pollFailed, pollFailed, pollFailed, pollFailed].map .poll)
        (PollState.start readerOpened)).sent
      = (pollLoop parseNothing [.poll pollNtag] (PollState.start readerOpened)).sent ∧
    pollLoop parseNothing ([.poll pollNtag] ++
        [pollFailed, pollFailed, pollFailed, pollFailed, pollFailed].map .poll ++
        [.poll pollNtag]) (PollState.start readerOpened)
      = pollLoop parseNothing ([.poll pollNtag] ++
        [pollFailed, pollFailed, pollFailed, pollFailed, pollFailed].map .poll)
        (PollState.start readerOpened) :=
  error_budget_self_disconnect parseNothing "linux" (fun _ => none) hwOk
    "pn532_uart:/dev/ttyUSB0" NewReader (PollState.start readerOpened) (by decide)
    [.poll pollNtag] [.poll pollNtag] [pollFailed, pollFailed, pollFailed, pollFailed, pollFailed]
    rfl (by decide)

/-! ## Properties of discovery -/

/-- The second symlink test of `Detect` compares the resolved path with itself
behind a colon, which no string satisfies. -/
theorem HasSuffix_colon_self (realPath : String) :
    HasSuffix realPath (":" ++ realPath) = false := by
  unfold HasSuffix
  rw [Bool.eq_false_iff]
  intro h
  rw [List.isSuffixOf_iff_suffix] at h
  have hl := h.length_le
  simp [String.toList] at hl

/-- The symlink test of `Detect` only fires when the exclusion list holds the
bare resolved path. -/
theorem skipResolved_iff (env : DetectEnv) (connected : List String) (name : String) :
    skipResolved env connected name = true ↔
      env.goos ≠ "windows" ∧
      ∃ realPath, env.resolve name = some realPath ∧ realPath ≠ "" ∧ realPath ∈ connected := by
  unfold skipResolved
  by_cases hg : env.goos = "windows"
  · simp [hg]
  · cases hr : env.resolve name with
    | none => simp [hg, Contains]
    | some rp => simp [hg, HasSuffix_colon_self, Contains]

/-- C8, the code at the failing input: `/dev/ttyUSB9` resolves to
`/dev/ttyUSB0`, whose spec is in the exclusion list, and `Detect` does not
skip it: it probes `/dev/ttyUSB9` and returns its spec. -/
theorem detect_probes_symlink_of_connected :
    symlinkEnv.resolve "/dev/ttyUSB9" = some "/dev/ttyUSB0" ∧
    skipResolved symlinkEnv ["pn532_uart:/dev/ttyUSB0"] "/dev/ttyUSB9" = false ∧
    (Detect symlinkEnv [] ["pn532_uart:/dev/ttyUSB0"]).probes
      = [{ name := "/dev/ttyUSB9", blockList := [] }] ∧
    (Detect symlinkEnv [] ["pn532_uart:/dev/ttyUSB0"]).device
      = some "pn532_uart:/dev/ttyUSB9" := by
  decide

theorem detectLoop_cons (env : DetectEnv) (connected : List String) (name : String)
    (rest : List String) (acc : DetectResult) :
    detectLoop env connected (name :: rest) acc =
      if Contains acc.serialBlockList name = true
          ∨ Contains connected ("pn532_uart:" ++ name) = true
          ∨ skipResolved env connected name = true
          ∨ connected.any (fun connDev => HasSuffix connDev (":" ++ name)) = true then
        detectLoop env connected rest acc
      else
        match connect env.hw name with
        | (some p, some _) =>
          detectLoop env connected rest
            { acc with probes := acc.probes ++ [Probe.mk name acc.serialBlockList],
                       closed := acc.closed ++ [p.Close.2],
                       serialBlockList := acc.serialBlockList ++ [name] }
        | (some p, none) =>
          { acc with probes := acc.probes ++ [Probe.mk name acc.serialBlockList],
                     closed := acc.closed ++ [p.Close.2],
                     device := some ("pn532_uart:" ++ name) }
        | (none, _) =>
          { acc with probes := acc.probes ++ [Probe.mk name acc.serialBlockList],
                     device := none } := by
  rw [detectLoop]
  by_cases h1 : Contains acc.serialBlockList name = true
  · simp [h1]
  · by_cases h2 : Contains connected ("pn532_uart:" ++ name) = true
    · simp [h1, h2]
    · by_cases h3 : skipResolved env connected name = true
      · simp [h1, h2, h3]
      · by_cases h4 : connected.any (fun connDev => HasSuffix connDev (":" ++ name)) = true
        · simp only [h1, h2, h3, h4]
          simp
        · simp only [h1, h2, h3, h4]
          rcases hc : connect env.hw name with ⟨_ | p, _ | e⟩ <;> simp

/-- A non-empty string returned by the second loop is the spec of one of the
candidates, and is not in the exclusion list. -/
theorem detectLoop_device (env : DetectEnv) (connected : List String) (l : List String)
    (acc : DetectResult) (d : String)
    (h : (detectLoop env connected l acc).device = some d) (hne : d ≠ "") :
    ∃ p ∈ l, d = "pn532_uart:" ++ p ∧ d ∉ connected := by
  induction l generalizing acc with
  | nil =>
    rw [detectLoop] at h
    injection h with h
    exact absurd h.symm hne
  | cons name rest ih =>
    rw [detectLoop_cons] at h
    split at h
    · obtain ⟨p, hp, hd⟩ := ih acc h
      exact ⟨p, List.mem_cons_of_mem _ hp, hd⟩
    · rename_i hskip
      split at h
      · obtain ⟨p, hp, hd⟩ := ih _ h
        exact ⟨p, List.mem_cons_of_mem _ hp, hd⟩
      · injection h with h
        subst h
        refine ⟨name, List.mem_cons_self _ _, rfl, ?_⟩
        intro hin
        apply hskip
        right; left
        simpa [Contains] using hin
      · cases h

/-- C9. Whatever the port list, the block list and the exclusion list, a
non-empty string returned by `Detect` is `pn532_uart:` followed by a port name
that passed the platform's naming filter, and is not in the exclusion list. -/
theorem detect_never_returns_excluded (env : DetectEnv) (serialBlockList connected : List String)
    (d : String) (h : (Detect env serialBlockList connected).device = some d) (hne : d ≠ "") :
    ∃ p ∈ env.ports, nameFilter env.goos p = true ∧ d = "pn532_uart:" ++ p ∧ d ∉ connected := by
  obtain ⟨p, hp, hd, hc⟩ := detectLoop_device env connected (toCheck env) _ d h hne
  rw [toCheck, List.mem_filter] at hp
  exact ⟨p, hp.1, hp.2, hd, hc⟩

theorem detect_never_returns_excluded_witness :
    ∃ p ∈ symlinkEnv.ports, nameFilter symlinkEnv.goos p = true ∧
      "pn532_uart:/dev/ttyUSB9" = "pn532_uart:" ++ p ∧
      "pn532_uart:/dev/ttyUSB9" ∉ ["pn532_uart:/dev/ttyUSB0"] :=
  detect_never_returns_excluded symlinkEnv [] ["pn532_uart:/dev/ttyUSB0"]
    "pn532_uart:/dev/ttyUSB9" (by decide) (by decide)

/-- Along the second loop the block list only grows at its end, no call of
`connect` is made on a name that is in the block list at that time, and no
name is probed twice. -/
theorem detectLoop_blockList (env : DetectEnv) (connected : List String) (l : List String)
    (acc : DetectResult)
    (hacc : ∀ pr ∈ acc.probes, pr.name ∈ acc.serialBlockList)
    (hnd : (acc.probes.map Probe.name).Nodup) :
    acc.serialBlockList <+: (detectLoop env connected l acc).serialBlockList ∧
    (∀ pr ∈ (detectLoop env connected l acc).probes,
      pr ∈ acc.probes ∨ (pr.name ∉ pr.blockList ∧ acc.serialBlockList <+: pr.blockList)) ∧
    ((detectLoop env connected l acc).probes.map Probe.name).Nodup := by
  induction l generalizing acc with
  | nil =>
    rw [detectLoop]
    exact ⟨List.prefix_refl _, fun pr hpr => Or.inl hpr, hnd⟩
  | cons name rest ih =>
    rw [detectLoop_cons]
    split
    · exact ih acc hacc hnd
    · rename_i hskip
      have hnot : name ∉ acc.serialBlockList := by
        intro hin
        apply hskip
        left
        simpa [Contains] using hin
      have hfresh : name ∉ acc.probes.map Probe.name := by
        intro hin
        obtain ⟨pr, hpr, hname⟩ := List.mem_map.mp hin
        exact hnot (hname ▸ hacc pr hpr)
      have hnd2 : ((acc.probes ++ [Probe.mk name acc.serialBlockList]).map Probe.name).Nodup := by
        rw [List.map_append, List.nodup_append]
        refine ⟨hnd, by simp, ?_⟩
        intro a ha hb
        simp only [List.map_cons, List.map_nil, List.mem_singleton] at hb
        exact hfresh (hb ▸ ha)
      have hnew : ∀ pr ∈ acc.probes ++ [Probe.mk name acc.serialBlockList],
          pr ∈ acc.probes ∨ (pr.name ∉ pr.blockList ∧ acc.serialBlockList <+: pr.blockList) := by
        intro pr hpr
        rcases List.mem_append.mp hpr with hpr | hpr
        · exact Or.inl hpr
        · rw [List.mem_singleton] at hpr
          subst hpr
          exact Or.inr ⟨hnot, List.prefix_refl _⟩
      split
      · rename_i p e hc
        have hacc2 : ∀ pr ∈ acc.probes ++ [Probe.mk name acc.serialBlockList],
            pr.name ∈ acc.serialBlockList ++ [name] := by
          intro pr hpr
          rcases List.mem_append.mp hpr with hpr | hpr
          · exact List.mem_append_left _ (hacc pr hpr)
          · rw [List.mem_singleton] at hpr
            subst hpr
            simp
        obtain ⟨i1, i2, i3⟩ := ih
          { acc with probes := acc.probes ++ [Probe.mk name acc.serialBlockList],
                     closed := acc.closed ++ [p.Close.2],
                     serialBlockList := acc.serialBlockList ++ [name] } hacc2 hnd2
        refine ⟨(List.prefix_append _ _).trans i1, ?_, i3⟩
        intro pr hpr
        rcases i2 pr hpr with h | ⟨h1, h2⟩
        · exact hnew pr h
        · exact Or.inr ⟨h1, (List.prefix_append _ _).trans h2⟩
      · exact ⟨List.prefix_refl _, hnew, hnd2⟩
      · exact ⟨List.prefix_refl _, hnew, hnd2⟩

/-- C10. In every call of `Detect` the block list it leaves extends the block
list it found, so every path in it before is in it after; every call of
`connect` is on a path that is not in the block list at that time, a time at
which the list holds everything it held before the call; no path is probed
twice in one call; and a later call, from any block list that still holds what
this call left, probes no path this call left in the block list. -/
theorem blocklist_append_only (env : DetectEnv) (serialBlockList connected : List String) :
    serialBlockList <+: (Detect env serialBlockList connected).serialBlockList ∧
    (∀ p ∈ serialBlockList, p ∈ (Detect env serialBlockList connected).serialBlockList) ∧
    (∀ pr ∈ (Detect env serialBlockList connected).probes,
      pr.name ∉ pr.blockList ∧ serialBlockList <+: pr.blockList) ∧
    ((Detect env serialBlockList connected).probes.map Probe.name).Nodup ∧
    (∀ (env2 : DetectEnv) (later connected2 : List String),
      (∀ p ∈ (Detect env serialBlockList connected).serialBlockList, p ∈ later) →
      ∀ pr ∈ (Detect env2 later connected2).probes,
        pr.name ∉ (Detect env serialBlockList connected).serialBlockList) := by
  have key : ∀ (e : DetectEnv) (bl c : List String),
      bl <+: (Detect e bl c).serialBlockList ∧
      (∀ pr ∈ (Detect e bl c).probes, pr.name ∉ pr.blockList ∧ bl <+: pr.blockList) ∧
      ((Detect e bl c).probes.map Probe.name).Nodup := by
    intro e bl c
    obtain ⟨h1, h2, h3⟩ := detectLoop_blockList e c (toCheck e)
      { device := some "", serialBlockList := bl, probes := [], closed := [] }
      (by intro pr hpr; cases hpr) (by simp)
    refine ⟨h1, ?_, h3⟩
    intro pr hpr
    rcases h2 pr hpr with h | h
    · cases h
    · exact h
  obtain ⟨h1, h2, h3⟩ := key env serialBlockList connected
  refine ⟨h1, fun p hp => h1.subset hp, h2, h3, ?_⟩
  intro env2 later connected2 hlater pr hpr hin
  obtain ⟨-, k2, -⟩ := key env2 later connected2
  obtain ⟨k3, k4⟩ := k2 pr hpr
  exact k3 (k4.subset (hlater _ hin))

/-! ## Properties of the reader manager: notifications, failed cancel, errors, disabled launcher -/

/-- The effect of a software notification on the state. -/
theorem readerManagerStep_software (env : Env) (st : Option Token) (s : ManagerState) :
    readerManagerStep env (.software st) s =
      { s with softwareToken := st,
               exitTimer := if cmpTokens st s.softwareToken then s.exitTimer
                            else s.exitTimer.map (fun t => t.Stop.2),
               effects := s.effects ++
                 (if cmpTokens st s.softwareToken then [] else stopLog s.exitTimer) } := by
  unfold readerManagerStep stopLog
  cases hc : cmpTokens st s.softwareToken <;> cases ht : s.exitTimer <;>
    simp [ManagerState.emit, hc, ht]

/-- The effect of an error scan on the state. -/
theorem readerManagerStep_error (e : Env) (src : String) (t : Option Token) (m : String)
    (u : ManagerState) :
    readerManagerStep e (errorScan src t m) u =
      { u with lastError := some e.now,
               effects := u.effects ++
                 (match u.lastError with
                  | none => [.playFailSound]
                  | some t => if e.now - t > 1000000000 then [.playFailSound] else []) } := by
  unfold readerManagerStep errorScan playFail
  cases hl : u.lastError with
  | none => simp [ManagerState.emit]
  | some t0 =>
    by_cases hc : e.now - t0 > 1000000000 <;> simp [hc, ManagerState.emit]

/-- C12, as stated, fails: with the timer armed by a removal waiting and no
software token tracked, a notification carrying no token stops the timer,
although both tokens are absent. -/
theorem absent_notification_stops_timer :
    afterRemoval.softwareToken = none ∧
    afterRemoval.exitTimer = some { id := 0, status := .pending } ∧
    (readerManagerStep envExit (.software none) afterRemoval).effects
      = afterRemoval.effects ++ [.timerStop 0 true] ∧
    (readerManagerStep envExit (.software none) afterRemoval).exitTimer
      = some { id := 0, status := .stopped } := by
  decide

/-- C12, amended. On a notification `st` the manager calls `Stop` on the exit
timer exactly when a timer exists and `cmpTokens st softwareToken` is false,
and `cmpTokens` is true only for two present tokens with equal UID and Text (an
absent token differs from everything, an absent one included); in every case
the software token becomes `st`, and the previous token, the launch queue and
the rest of the state are unchanged. -/
theorem software_notification (env : Env) (st : Option Token) (s : ManagerState) :
    readerManagerStep env (.software st) s =
      { s with softwareToken := st,
               exitTimer := if cmpTokens st s.softwareToken then s.exitTimer
                            else s.exitTimer.map (fun t => t.Stop.2),
               effects := s.effects ++
                 (if cmpTokens st s.softwareToken then [] else stopLog s.exitTimer) } ∧
    (cmpTokens st s.softwareToken = true ↔
      ∃ x y, st = some x ∧ s.softwareToken = some y ∧ x.UID = y.UID ∧ x.Text = y.Text) := by
  constructor
  · exact readerManagerStep_software env st s
  · cases st with
    | none => simp [cmpTokens_none_left]
    | some x =>
      cases hs : s.softwareToken with
      | none => simp [cmpTokens_none_right]
      | some y => simp [cmpTokens]

/-- C13, as stated, fails: after the timer armed by the removal of A has
fired, a scan of token B with the launcher enabled puts B on the launch queue
but creates no timer: the log gains the failed `Stop`, the sound and the
enqueue only, and the fired timer stays. -/
theorem failed_cancel_starts_no_timer :
    afterExpiry.exitTimer = some { id := 0, status := .fired } ∧
    (readerManagerStep envExit (scanOf "r" (some tokenB)) afterExpiry).effects
      = afterExpiry.effects ++ [.timerStop 0 false, .playSuccessSound, .enqueue tokenB] ∧
    (readerManagerStep envExit (scanOf "r" (some tokenB)) afterExpiry).exitTimer
      = some { id := 0, status := .fired } ∧
    (readerManagerStep envExit (scanOf "r" (some tokenB)) afterExpiry).nextTimerId
      = afterExpiry.nextTimerId := by
  decide

/-- C13, amended. When a present token passes debounce, the launcher is not
disabled and the exit timer exists but is no longer waiting (so `Stop` fails),
the manager puts the token on the launch queue and plays the success sound,
and starts no timer: the timer and the timer counter are as before. -/
theorem failed_cancel_forwards_only (env : Env) (src : String) (T : Token) (s : ManagerState)
    (t : Timer) (ht : s.exitTimer = some t) (hs : t.status ≠ .pending)
    (hl : env.exit.launcherDisabled = false)
    (hp : cmpTokens (some T) s.prevToken = false) :
    readerManagerStep env (scanOf src (some T)) s =
      { s with prevToken := some T, launchQueue := s.launchQueue ++ [T],
               effects := s.effects ++ [.timerStop t.id false, .playSuccessSound, .enqueue T] } := by
  have hn : s.noTimerArmed := by
    intro u hu
    rw [ht] at hu
    cases hu
    exact hs
  have h := processScan_send env T s hl hn hp
  simp only [readerManagerStep, scanOf, h, ht]
  simp

theorem failed_cancel_forwards_only_witness :
    readerManagerStep envExit (scanOf "r" (some tokenB)) afterExpiry =
      { afterExpiry with
        prevToken := some tokenB, launchQueue := afterExpiry.launchQueue ++ [tokenB],
        effects := afterExpiry.effects ++
          [.timerStop (Timer.mk 0 .fired).id false, .playSuccessSound, .enqueue tokenB] } :=
  failed_cancel_forwards_only envExit "r" tokenB afterExpiry (Timer.mk 0 .fired)
    (by decide) (by decide) rfl (by decide)

/-- C14, as stated, fails: error scans at 0 s, 0.6 s and 1.2 s play the
failure sound once, at 0 s; at 1.2 s the previous error scan is 0.6 s old. -/
theorem fail_sound_measured_from_last_error :
    (readerManager [.event (envAt 0) (errorScan "r" none "read"),
        .event (envAt 600000000) (errorScan "r" none "read")] ManagerState.init).effects
      = [.playFailSound] ∧
    (readerManager [.event (envAt 0) (errorScan "r" none "read"),
        .event (envAt 600000000) (errorScan "r" none "read"),
        .event (envAt 1200000000) (errorScan "r" none "read")] ManagerState.init).effects
      = [.playFailSound] := by
  decide

/-- C14, amended. For an error scan at clock reading `now` the manager plays
the failure sound exactly when there was no error scan before or the previous
error scan, played or not, is more than one second older than `now`; it then
records `now` as the time of the last error. So of two error scans in
succession the second plays exactly when it comes more than a second after the
first. Nothing else of the state changes. -/
theorem fail_sound_rate_limit (e1 e2 : Env) (src1 src2 : String) (t1 t2 : Option Token)
    (m1 m2 : String) (s : ManagerState) :
    readerManagerStep e1 (errorScan src1 t1 m1) s =
      { s with lastError := some e1.now,
               effects := s.effects ++
                 (match s.lastError with
                  | none => [.playFailSound]
                  | some t => if e1.now - t > 1000000000 then [.playFailSound] else []) } ∧
    readerManagerStep e2 (errorScan src2 t2 m2) (readerManagerStep e1 (errorScan src1 t1 m1) s) =
      { readerManagerStep e1 (errorScan src1 t1 m1) s with
        lastError := some e2.now,
        effects := (readerManagerStep e1 (errorScan src1 t1 m1) s).effects ++
          (if e2.now - e1.now > 1000000000 then [.playFailSound] else []) } := by
  refine ⟨readerManagerStep_error e1 src1 t1 m1 s, ?_⟩
  rw [readerManagerStep_error e2 src2 t2 m2, readerManagerStep_error e1 src1 t1 m1 s]

/-- Scans of tokens with the UID and Text of the previous token change
nothing, however many there are. -/
theorem readerManager_duplicates (T : Token) (later : List (Env × String × Token))
    (h : ∀ x ∈ later, x.2.2.UID = T.UID ∧ x.2.2.Text = T.Text) (s : ManagerState)
    (hp : ∃ P : Token, s.prevToken = some P ∧ P.UID = T.UID ∧ P.Text = T.Text) :
    readerManager (later.map (fun x => Input.event x.1 (scanOf x.2.1 (some x.2.2)))) s = s := by
  induction later with
  | nil => rfl
  | cons x xs ih =>
    obtain ⟨P, hP, hu, ht⟩ := hp
    obtain ⟨xu, xt⟩ := h x (List.mem_cons_self _ _)
    have hdup : cmpTokens (some x.2.2) s.prevToken = true := by
      rw [hP]
      simp [cmpTokens, xu, xt, hu, ht]
    have hstep : readerManagerStep x.1 (scanOf x.2.1 (some x.2.2)) s = s :=
      processScan_duplicate x.1 _ s hdup
    simp only [List.map_cons, readerManager, hstep]
    split
    · rfl
    · exact ih (fun y hy => h y (List.mem_cons_of_mem _ hy))

/-- While no removal and no other token is scanned, the previous token and the
launch queue stay as they are. -/
theorem readerManager_noNewToken (T : Token) (ins : List Input)
    (h : ∀ i ∈ ins, i.noNewToken T = true) (s : ManagerState)
    (hp : ∃ P : Token, s.prevToken = some P ∧ P.UID = T.UID ∧ P.Text = T.Text) :
    (readerManager ins s).prevToken = s.prevToken ∧
    (readerManager ins s).launchQueue = s.launchQueue := by
  induction ins generalizing s with
  | nil => exact ⟨rfl, rfl⟩
  | cons i rest ih =>
    have hi := h i (List.mem_cons_self _ _)
    have hrest : ∀ x ∈ rest, x.noNewToken T = true :=
      fun x hx => h x (List.mem_cons_of_mem _ hx)
    obtain ⟨P, hP, hu, ht⟩ := hp
    have key : ∀ (s2 : ManagerState), s2.prevToken = s.prevToken →
        s2.launchQueue = s.launchQueue →
        (readerManager rest s2).prevToken = s.prevToken ∧
        (readerManager rest s2).launchQueue = s.launchQueue := by
      intro s2 h1 h2
      obtain ⟨k1, k2⟩ := ih hrest s2 ⟨P, h1.trans hP, hu, ht⟩
      exact ⟨k1.trans h1, k2.trans h2⟩
    cases i with
    | expire => exact key _ rfl rfl
    | event env ev =>
      rw [readerManager]
      split
      · exact ⟨rfl, rfl⟩
      · cases ev with
        | software st =>
          rw [readerManagerStep_software]
          exact key _ rfl rfl
        | scan sc =>
          cases he : sc.Error with
          | some e =>
            have hsc : Event.scan sc = errorScan sc.Source sc.Token e := by
              cases sc
              simp only [errorScan] at he ⊢
              rw [he]
            rw [hsc, readerManagerStep_error]
            exact key _ rfl rfl
          | none =>
            cases htok : sc.Token with
            | none => simp [Input.noNewToken, he, htok] at hi
            | some tok =>
              simp only [Input.noNewToken, he, htok, Option.isSome_none, Bool.false_or,
                Bool.and_eq_true, beq_iff_eq] at hi
              have hdup : cmpTokens (some tok) s.prevToken = true := by
                rw [hP]
                simp [cmpTokens, hi.1, hi.2, hu, ht]
              have hstep : readerManagerStep env (.scan sc) s = s := by
                simp only [readerManagerStep, he, htok]
                exact processScan_duplicate env _ s hdup
              rw [hstep]
              exact key s rfl rfl

/-- C20. A present token that passes debounce while the launcher is disabled
only becomes the previous token: nothing is enqueued, no sound is played, the
timer and the software token are untouched. Scans that follow with a token of
the same UID and Text, whatever the launcher flag is by then, change nothing;
and as long as no removal and no other token is processed (error scans,
notifications and the timer may come in between) the launch queue stays as it
was, so the token is not forwarded. -/
theorem disabled_scan_consumed (env : Env) (src : String) (T : Token) (s : ManagerState)
    (later : List (Env × String × Token)) (ins : List Input)
    (hd : env.exit.launcherDisabled = true)
    (hp : cmpTokens (some T) s.prevToken = false)
    (hl : ∀ x ∈ later, x.2.2.UID = T.UID ∧ x.2.2.Text = T.Text)
    (hi : ∀ i ∈ ins, i.noNewToken T = true) :
    readerManagerStep env (scanOf src (some T)) s = { s with prevToken := some T } ∧
    readerManager (later.map (fun x => Input.event x.1 (scanOf x.2.1 (some x.2.2))))
        (readerManagerStep env (scanOf src (some T)) s)
      = readerManagerStep env (scanOf src (some T)) s ∧
    (readerManager ins (readerManagerStep env (scanOf src (some T)) s)).launchQueue
      = s.launchQueue ∧
    (readerManager ins (readerManagerStep env (scanOf src (some T)) s)).prevToken = some T := by
  have h1 : readerManagerStep env (scanOf src (some T)) s = { s with prevToken := some T } := by
    simp [readerManagerStep, scanOf, processScan, hp, hd]
  refine ⟨h1, ?_, ?_, ?_⟩
  · rw [h1]
    exact readerManager_duplicates T later hl _ ⟨T, rfl, rfl, rfl⟩
  · rw [h1]
    exact (readerManager_noNewToken T ins hi _ ⟨T, rfl, rfl, rfl⟩).2
  · rw [h1]
    exact (readerManager_noNewToken T ins hi _ ⟨T, rfl, rfl, rfl⟩).1

theorem disabled_scan_consumed_witness :
    readerManagerStep envDisabled (scanOf "r" (some tokenA)) ManagerState.init
      = { ManagerState.init with prevToken := some tokenA } ∧
    readerManager ([(envExit, "r", tokenA), (envExit, "r", { tokenA with ScanTime := 9 })].map
        (fun x => Input.event x.1 (scanOf x.2.1 (some x.2.2))))
        (readerManagerStep envDisabled (scanOf "r" (some tokenA)) ManagerState.init)
      = readerManagerStep envDisabled (scanOf "r" (some tokenA)) ManagerState.init ∧
    (readerManager [.event envExit (errorScan "r" none "read"), .event envExit (.software none),
        .expire, .event envExit (scanOf "r" (some tokenA))]
        (readerManagerStep envDisabled (scanOf "r" (some tokenA)) ManagerState.init)).launchQueue
      = ManagerState.init.launchQueue ∧
    (readerManager [.event envExit (errorScan "r" none "read"), .event envExit (.software none),
        .expire, .event envExit (scanOf "r" (some tokenA))]
        (readerManagerStep envDisabled (scanOf "r" (some tokenA)) ManagerState.init)).prevToken
      = some tokenA :=
  disabled_scan_consumed envDisabled "r" tokenA ManagerState.init
    [(envExit, "r", tokenA), (envExit, "r", { tokenA with ScanTime := 9 })]
    [.event envExit (errorScan "r" none "read"), .event envExit (.software none),
      .expire, .event envExit (scanOf "r" (some tokenA))]
    rfl rfl (by decide) (by decide)

/-! ## Properties of `Open` -/

theorem cutColon_none (l : List Char) (h : ':' ∉ l) : cutColon l = none := by
  induction l with
  | nil => rfl
  | cons c cs ih =>
    have hc : c ≠ ':' := fun e => h (e ▸ List.mem_cons_self _ _)
    have hcs : ':' ∉ cs := fun e => h (List.mem_cons_of_mem _ e)
    simp [cutColon, hc, ih hcs]

theorem cutColon_first (a b : List Char) (h : ':' ∉ a) :
    cutColon (a ++ ':' :: b) = some (a, b) := by
  induction a with
  | nil => simp [cutColon]
  | cons c cs ih =>
    have hc : c ≠ ':' := fun e => h (e ▸ List.mem_cons_self _ _)
    have hcs : ':' ∉ cs := fun e => h (List.mem_cons_of_mem _ e)
    simp [cutColon, hc, ih hcs]

/-- A failed `Open` leaves the reader as it was and starts no goroutine. -/
theorem Open_error_frame (goos : String) (statError : String → Option String)
    (hw : SerialEnv) (device : String) (r : Pn532UartReader)
    (h : (Pn532UartReader.Open goos statError hw device r).err ≠ none) :
    (Pn532UartReader.Open goos statError hw device r).reader = r ∧
    (Pn532UartReader.Open goos statError hw device r).loop = none := by
  unfold Pn532UartReader.Open at h ⊢
  split
  · split
    · exact ⟨rfl, rfl⟩
    · split
      · exact ⟨rfl, rfl⟩
      · split
        · exact ⟨rfl, rfl⟩
        · exact ⟨rfl, rfl⟩
        · rename_i hsplit _ _ hstat _ _ hconn
          simp [hsplit, hstat, hconn] at h
          simp_all
  · exact ⟨rfl, rfl⟩

theorem SplitN_first_colon (device : String) (a b : List Char)
    (hd : device.toList = a ++ ':' :: b) (ha : ':' ∉ a) :
    SplitN device = [String.mk a, String.mk b] := by
  unfold SplitN
  rw [hd, cutColon_first a b ha]

/-- On a device string with a colon, `Open` takes the text before the first
colon as the reader id and all the text after it as the port name. -/
theorem Open_first_colon (goos : String) (statError : String → Option String)
    (hw : SerialEnv) (r : Pn532UartReader) (device : String) (a b : List Char)
    (hd : device.toList = a ++ ':' :: b) (ha : ':' ∉ a) :
    Pn532UartReader.Open goos statError hw device r =
      if String.mk a ≠ "pn532_uart" then
        { err := some ("invalid reader id: " ++ String.mk a), reader := r, closed := [],
          loop := none }
      else
        match (if goos != "windows" then statError (String.mk b) else none) with
        | some e => { err := some e, reader := r, closed := [], loop := none }
        | none =>
          match connect hw (String.mk b) with
          | (some port, some e) =>
            { err := some e, reader := r, closed := [port.Close.2], loop := none }
          | (none, some e) => { err := some e, reader := r, closed := [], loop := none }
          | (port, none) =>
            { err := none,
              reader := { r with port := port, device := device, name := String.mk b,
                                 polling := true },
              closed := [],
              loop := some (PollState.start
                { r with port := port, device := device, name := String.mk b,
                         polling := true }) } := by
  unfold Pn532UartReader.Open
  rw [SplitN_first_colon device a b hd ha]
  by_cases hid : String.mk a = "pn532_uart"
  · have hc : Contains Ids (String.mk a) = true := by
      simp [Contains, Ids, hid]
    simp only [hc, hid]
    rfl
  · have hc : Contains Ids (String.mk a) = false := by
      simp [Contains, Ids, hid]
    simp [hc, hid]

/-- C11. `Open` splits the device string at its first colon only: on a string
with a colon it takes the text before the first colon as the reader id and all
the text after it, further colons included, as the port name, which is what it
hands to `os.Stat` and `connect` and stores as `name` when it succeeds. It
returns an error for a device string without a colon and for one whose text
before the first colon is not `pn532_uart`; and whenever it returns an error,
the reader (device, name, port, polling and the rest) is as before and no
goroutine has been started, so a fresh reader still reports `Connected` false. -/
theorem Open_rejects_and_fails_atomically (goos : String) (statError : String → Option String)
    (hw : SerialEnv) (r : Pn532UartReader) :
    (∀ (device : String) (a b : List Char), device.toList = a ++ ':' :: b → ':' ∉ a →
      Pn532UartReader.Open goos statError hw device r =
        if String.mk a ≠ "pn532_uart" then
          { err := some ("invalid reader id: " ++ String.mk a), reader := r, closed := [],
            loop := none }
        else
          match (if goos != "windows" then statError (String.mk b) else none) with
          | some e => { err := some e, reader := r, closed := [], loop := none }
          | none =>
            match connect hw (String.mk b) with
            | (some port, some e) =>
              { err := some e, reader := r, closed := [port.Close.2], loop := none }
            | (none, some e) => { err := some e, reader := r, closed := [], loop := none }
            | (port, none) =>
              { err := none,
                reader := { r with port := port, device := device, name := String.mk b,
                                   polling := true },
                closed := [],
                loop := some (PollState.start
                  { r with port := port, device := device, name := String.mk b,
                           polling := true }) }) ∧
    (∀ (device : String) (a b : List Char) (port : Port),
      device.toList = a ++ ':' :: b → ':' ∉ a → String.mk a = "pn532_uart" →
      (if goos != "windows" then statError (String.mk b) else none) = none →
      connect hw (String.mk b) = (some port, none) →
      (Pn532UartReader.Open goos statError hw device r).err = none ∧
      (Pn532UartReader.Open goos statError hw device r).reader =
        { r with port := some port, device := device, name := String.mk b, polling := true } ∧
      (Pn532UartReader.Open goos statError hw device r).loop =
        some (PollState.start
          { r with port := some port, device := device, name := String.mk b,
                   polling := true })) ∧
    (∀ device : String, ':' ∉ device.toList →
      (Pn532UartReader.Open goos statError hw device r).err ≠ none) ∧
    (∀ (device : String) (a b : List Char), device.toList = a ++ ':' :: b → ':' ∉ a →
      String.mk a ≠ "pn532_uart" →
      (Pn532UartReader.Open goos statError hw device r).err ≠ none) ∧
    (∀ device : String, (Pn532UartReader.Open goos statError hw device r).err ≠ none →
      (Pn532UartReader.Open goos statError hw device r).reader = r ∧
      (Pn532UartReader.Open goos statError hw device r).loop = none) ∧
    (∀ device : String, (Pn532UartReader.Open goos statError hw device NewReader).err ≠ none →
      (Pn532UartReader.Open goos statError hw device NewReader).reader.Connected = false) := by
  refine ⟨?_, ?_, ?_, ?_, ?_, ?_⟩
  · intro device a b hd ha
    exact Open_first_colon goos statError hw r device a b hd ha
  · intro device a b port hd ha hid hstat hconn
    rw [Open_first_colon goos statError hw r device a b hd ha, if_neg (by simp [hid]), hstat]
    simp [hconn]
  · intro device hd
    have hs : SplitN device = [device] := by
      unfold SplitN
      rw [cutColon_none _ hd]
    simp [Pn532UartReader.Open, hs]
  · intro device a b hd ha hid
    rw [Open_first_colon goos statError hw r device a b hd ha]
    simp [hid]
  · intro device h
    exact Open_error_frame goos statError hw device r h
  · intro device h
    rw [(Open_error_frame goos statError hw device NewReader h).1]
    rfl

/-- C11 on concrete device strings: a spec whose port name holds a second
colon, which is accepted with everything after the first colon as the name; a
path without a colon; and a spec of another reader. -/
theorem Open_rejects_and_fails_atomically_witness :
    ((Pn532UartReader.Open "windows" (fun _ => some "no such file") hwOk "pn532_uart:COM3:1"
        NewReader).err = none ∧
      (Pn532UartReader.Open "windows" (fun _ => some "no such file") hwOk "pn532_uart:COM3:1"
        NewReader).reader =
        { NewReader with
          port := some { name := "COM3:1", closeError := none, closeCalls := 0 },
          device := "pn532_uart:COM3:1", name := "COM3:1", polling := true } ∧
      (Pn532UartReader.Open "windows" (fun _ => some "no such file") hwOk "pn532_uart:COM3:1"
        NewReader).loop =
        some (PollState.start
          { NewReader with
            port := some { name := "COM3:1", closeError := none, closeCalls := 0 },
            device := "pn532_uart:COM3:1", name := "COM3:1",
            polling := true })) ∧
    (Pn532UartReader.Open "windows" (fun _ => some "no such file") hwOk "/dev/ttyUSB0"
      NewReader).err ≠ none ∧
    (Pn532UartReader.Open "windows" (fun _ => some "no such file") hwOk "acr122:/dev/ttyUSB0"
      NewReader).err ≠ none ∧
    (Pn532UartReader.Open "windows" (fun _ => some "no such file") hwOk "acr122:/dev/ttyUSB0"
      NewReader).reader = NewReader ∧
    (Pn532UartReader.Open "windows" (fun _ => some "no such file") hwOk "acr122:/dev/ttyUSB0"
      NewReader).reader.Connected = false :=
  have h := Open_rejects_and_fails_atomically "windows" (fun _ => some "no such file") hwOk
    NewReader
  have hbad := h.2.2.2.1 "acr122:/dev/ttyUSB0" "acr122".toList "/dev/ttyUSB0".toList rfl
    (by decide) (by decide)
  ⟨h.2.1 "pn532_uart:COM3:1" "pn532_uart".toList "COM3:1".toList
     { name := "COM3:1", closeError := none, closeCalls := 0 } rfl (by decide) (by decide)
     (by decide) (by decide),
   h.2.2.1 "/dev/ttyUSB0" (by decide),
   hbad,
   (h.2.2.2.2.1 "acr122:/dev/ttyUSB0" hbad).1,
   h.2.2.2.2.2 "acr122:/dev/ttyUSB0" hbad⟩

/-! ## Properties of the poll loop: what counts as an error -/

/-- The error counter after the loop body depends on the passive-target query
alone. -/
theorem pollBody_errors (P : List (Fin 256) → Except String String) (o : Poll)
    (st : PollState) : (pollBody P o st).errors = errorsAfter st.errors o := by
  unfold pollBody errorsAfter pollToken
  split
  · rfl
  · split <;> rfl
  · dsimp only
    repeat' split
    all_goals rfl

/-- C16, as stated, fails: after two failed polls, one poll that reports no
target and two more failed polls the loop still runs, and a fifth failed poll
makes it return, although a poll without a protocol error lies among the five
most recent ones. -/
theorem budget_spent_across_no_target :
    pollNoTarget.failed = false ∧
    (pollLoop parseNothing
        ([pollFailed, pollFailed, pollNoTarget, pollFailed, pollFailed].map .poll)
        (PollState.start readerOpened)).exited = false ∧
    (pollLoop parseNothing
        ([pollFailed, pollFailed, pollNoTarget, pollFailed, pollFailed, pollFailed].map .poll)
        (PollState.start readerOpened)).exited = true ∧
    (pollLoop parseNothing
        ([pollFailed, pollFailed, pollNoTarget, pollFailed, pollFailed, pollFailed].map .poll)
        (PollState.start readerOpened)).r.Connected = false := by
  decide

theorem pollLoop_exited_eq (P : List (Fin 256) → Except String String) (os : List Poll)
    (st : PollState) (he : st.exited = false) (hp : st.r.polling = true) :
    (pollLoop P (os.map .poll) st).exited = budgetSpent st.errors os := by
  have he2 : ¬st.exited = true := by simp [he]
  induction os generalizing st with
  | nil =>
    by_cases hm : st.errors ≥ maxErrors
    · rw [List.map_nil, pollLoop_budget P _ st he2 hp hm]
      simp [budgetSpent, hm]
    · rw [List.map_nil, pollLoop_nil P st he2 hp hm]
      simp [budgetSpent, hm, he]
  | cons o os ih =>
    by_cases hm : st.errors ≥ maxErrors
    · rw [pollLoop_budget P _ st he2 hp hm]
      simp [budgetSpent, hm]
    · rw [List.map_cons, pollLoop_poll P o _ st he2 hp hm]
      obtain ⟨-, f2, f3⟩ := pollBody_frame P o st
      rw [ih (pollBody P o st) (f3.trans he) (f2.trans hp) (by simp [f3, he]),
        pollBody_errors]
      simp [budgetSpent, hm]

theorem budgetSpent_of_failed (os : List Poll) (n : Nat)
    (ht : ∀ o ∈ os, o.hasTarget = false)
    (hn : maxErrors ≤ n + (os.filter Poll.failed).length) : budgetSpent n os = true := by
  induction os generalizing n with
  | nil => simpa [budgetSpent] using hn
  | cons o os ih =>
    by_cases hm : n ≥ maxErrors
    · simp [budgetSpent, hm]
    · have hrest : ∀ x ∈ os, x.hasTarget = false :=
        fun x hx => ht x (List.mem_cons_of_mem _ hx)
      have ho := ht o (List.mem_cons_self _ _)
      simp only [budgetSpent, hm, if_false]
      apply ih _ hrest
      unfold Poll.hasTarget at ho
      unfold errorsAfter
      rw [List.filter_cons] at hn
      split at ho
      · cases ho
      · rename_i hnot
        split
        · rename_i e hin
          have hf : o.failed = true := by simp [Poll.failed, hin]
          simp only [hf, if_true, List.length_cons] at hn
          omega
        · rename_i hin
          have hf : o.failed = false := by simp [Poll.failed, hin]
          simpa [hf] using hn
        · rename_i tgt hin
          exact absurd hin (hnot tgt)

/-- C16, amended. The counter counts the protocol errors since the last poll
that reported a target: a failed query adds one, a poll that reports no target
leaves it as it is, a poll that reports a target sets it to zero. The goroutine
started by `Open` has returned after a sequence of polls exactly when the
counter so computed stood at five or more at one of the loop conditions; so
five failed polls with no target reported since make the loop return, whatever
polls reporting no target lie between them. -/
theorem error_count_since_last_target (P : List (Fin 256) → Except String String)
    (goos : String) (statError : String → Option String) (hw : SerialEnv) (device : String)
    (r0 : Pn532UartReader) (st0 : PollState) (os : List Poll)
    (hopen : (Pn532UartReader.Open goos statError hw device r0).loop = some st0) :
    (∀ (o : Poll) (st : PollState), (pollBody P o st).errors = errorsAfter st.errors o) ∧
    (pollLoop P (os.map .poll) st0).exited = budgetSpent 0 os ∧
    ((∀ o ∈ os, o.hasTarget = false) → maxErrors ≤ (os.filter Poll.failed).length →
      (pollLoop P (os.map .poll) st0).exited = true) := by
  obtain ⟨hst, -, hpoll, -, -, -⟩ := Open_loop goos statError hw device r0 st0 hopen
  have he : st0.exited = false := by rw [hst]; rfl
  have hz : st0.errors = 0 := by rw [hst]; rfl
  have hex := pollLoop_exited_eq P os st0 he hpoll
  rw [hz] at hex
  refine ⟨pollBody_errors P, hex, ?_⟩
  intro ht hn
  rw [hex]
  exact budgetSpent_of_failed os 0 ht (by simpa using hn)

theorem error_count_since_last_target_witness :
    (∀ (o : Poll) (st : PollState),
      (pollBody parseNothing o st).errors = errorsAfter st.errors o) ∧
    (pollLoop parseNothing
        ([pollFailed, pollFailed, pollNoTarget, pollFailed, pollFailed, pollFailed].map .poll)
        (PollState.start readerOpened)).exited
      = budgetSpent 0 [pollFailed, pollFailed, pollNoTarget, pollFailed, pollFailed, pollFailed] ∧
    ((∀ o ∈ [pollFailed, pollFailed, pollNoTarget, pollFailed, pollFailed, pollFailed],
        o.hasTarget = false) →
      maxErrors ≤ ([pollFailed, pollFailed, pollNoTarget, pollFailed, pollFailed,
        pollFailed].filter Poll.failed).length →
      (pollLoop parseNothing
        ([pollFailed, pollFailed, pollNoTarget, pollFailed, pollFailed, pollFailed].map .poll)
        (PollState.start readerOpened)).exited = true) :=
  error_count_since_last_target parseNothing "linux" (fun _ => none) hwOk
    "pn532_uart:/dev/ttyUSB0" NewReader (PollState.start readerOpened)
    [pollFailed, pollFailed, pollNoTarget, pollFailed, pollFailed, pollFailed] (by decide)

/-! ## Properties of the poll loop: removal scans -/

theorem lastIsRemoval_concat (l : List Scan) (x : Scan) :
    lastIsRemoval (l ++ [x]) = x.Token.isNone := by
  induction l with
  | nil => rfl
  | cons a as ih =>
    cases as with
    | nil => rfl
    | cons b bs => simpa [lastIsRemoval] using ih

theorem noDoubleRemoval_concat (l : List Scan) (x : Scan) :
    noDoubleRemoval (l ++ [x])
      = (noDoubleRemoval l && !(lastIsRemoval l && x.Token.isNone)) := by
  induction l with
  | nil => rfl
  | cons a as ih =>
    cases as with
    | nil => simp [noDoubleRemoval, lastIsRemoval]
    | cons b bs =>
      have e1 : noDoubleRemoval ((a :: b :: bs) ++ [x])
          = (!(a.Token.isNone && b.Token.isNone) && noDoubleRemoval ((b :: bs) ++ [x])) := rfl
      have e2 : noDoubleRemoval (a :: b :: bs)
          = (!(a.Token.isNone && b.Token.isNone) && noDoubleRemoval (b :: bs)) := rfl
      have e3 : lastIsRemoval (a :: b :: bs) = lastIsRemoval (b :: bs) := rfl
      rw [e1, e2, e3, ih, Bool.and_assoc]

theorem firstIsRemoval_concat (l : List Scan) (x : Scan) :
    firstIsRemoval (l ++ [x]) = if l = [] then x.Token.isNone else firstIsRemoval l := by
  cases l <;> simp [firstIsRemoval]

/-- What the loop body does to the scans sent and to the remembered token: it
leaves both, or sends a removal for a remembered token and forgets it, or
remembers a new token, which it sends unless `TokensEqual` says it is the
remembered one. -/
theorem pollBody_sent (P : List (Fin 256) → Except String String) (o : Poll)
    (st : PollState) :
    ((pollBody P o st).sent = st.sent ∧ (pollBody P o st).r.lastToken = st.r.lastToken) ∨
    (st.r.lastToken.isSome = true ∧
      (pollBody P o st).sent = st.sent ++ [Scan.mk st.r.device none none] ∧
      (pollBody P o st).r.lastToken = none) ∨
    (∃ tok : Token, (pollBody P o st).r.lastToken = some tok ∧
      ((TokensEqual (some tok) st.r.lastToken = false ∧
          (pollBody P o st).sent = st.sent ++ [Scan.mk st.r.device (some tok) none]) ∨
        (TokensEqual (some tok) st.r.lastToken = true ∧ (pollBody P o st).sent = st.sent))) := by
  have tokenCase : ∀ (tgt : Target) (td : TagData) (u : PollState),
      u.sent = st.sent → u.r = st.r →
      ∃ tok : Token, (pollToken P o tgt td u).r.lastToken = some tok ∧
        ((TokensEqual (some tok) st.r.lastToken = false ∧
            (pollToken P o tgt td u).sent = st.sent ++ [Scan.mk st.r.device (some tok) none]) ∨
          (TokensEqual (some tok) st.r.lastToken = true ∧
            (pollToken P o tgt td u).sent = st.sent)) := by
    intro tgt td u hs hr
    unfold pollToken
    cases hP : P td.Bytes <;> dsimp only <;> rw [hr, hs] <;> refine ⟨_, rfl, ?_⟩ <;> split
    · rename_i hne
      left
      exact ⟨by simpa using hne, rfl⟩
    · rename_i hne
      right
      exact ⟨by simpa using hne, hs⟩
    · rename_i hne
      left
      exact ⟨by simpa using hne, rfl⟩
    · rename_i hne
      right
      exact ⟨by simpa using hne, hs⟩
  unfold pollBody
  split
  · exact Or.inl ⟨rfl, rfl⟩
  · split
    · rename_i l hl
      exact Or.inr (Or.inl ⟨by simp [hl], rfl, rfl⟩)
    · exact Or.inl ⟨rfl, rfl⟩
  · dsimp only
    split
    · exact Or.inl ⟨rfl, rfl⟩
    · split
      · split
        · exact Or.inl ⟨rfl, rfl⟩
        · exact Or.inr (Or.inr (tokenCase _ _ _ rfl rfl))
      · split
        · exact Or.inl ⟨rfl, rfl⟩
        · exact Or.inr (Or.inr (tokenCase _ _ _ rfl rfl))

/-- A property of the scans sent and the remembered token that the loop body
keeps is kept by the whole loop. -/
theorem pollLoop_sent_invariant (P : List (Fin 256) → Except String String)
    (Q : List Scan → Option Token → Prop)
    (hbody : ∀ (o : Poll) (st : PollState), Q st.sent st.r.lastToken →
      Q (pollBody P o st).sent (pollBody P o st).r.lastToken)
    (ins : List PollInput) (st : PollState) (h : Q st.sent st.r.lastToken) :
    Q (pollLoop P ins st).sent (pollLoop P ins st).r.lastToken := by
  have hclose : ∀ r : Pn532UartReader, r.Close.2.lastToken = r.lastToken := by
    intro r
    unfold Pn532UartReader.Close
    dsimp only
    split <;> rfl
  induction ins generalizing st with
  | nil =>
    by_cases he : st.exited = true
    · rw [pollLoop_exited P _ st he]; exact h
    · by_cases hp : st.r.polling = true
      · by_cases hm : st.errors ≥ maxErrors
        · rw [pollLoop_budget P _ st he hp hm]
          show Q st.sent st.r.Close.2.lastToken
          rw [hclose]; exact h
        · rw [pollLoop_nil P st he hp hm]; exact h
      · rw [pollLoop_stopped P _ st he hp]; exact h
  | cons i rest ih =>
    by_cases he : st.exited = true
    · rw [pollLoop_exited P _ st he]; exact h
    · by_cases hp : st.r.polling = true
      · by_cases hm : st.errors ≥ maxErrors
        · rw [pollLoop_budget P _ st he hp hm]
          show Q st.sent st.r.Close.2.lastToken
          rw [hclose]; exact h
        · cases i with
          | poll o =>
            rw [pollLoop_poll P o _ st he hp hm]
            exact ih _ (hbody o st h)
          | close =>
            rw [pollLoop_close P _ st he hp hm]
            apply ih
            show Q st.sent st.r.Close.2.lastToken
            rw [hclose]; exact h
      · rw [pollLoop_stopped P _ st he hp]; exact h

theorem TokensEqual_some_true (tok : Token) (last : Option Token)
    (h : TokensEqual (some tok) last = true) : last.isSome = true := by
  cases last with
  | none => simp [TokensEqual] at h
  | some l => rfl

/-- The loop body keeps: no two removals in a row among the scans sent, and
the last scan sent is not a removal while a token is remembered. -/
theorem pollBody_noDoubleRemoval (P : List (Fin 256) → Except String String) (o : Poll)
    (st : PollState)
    (h : noDoubleRemoval st.sent = true ∧
      (st.r.lastToken.isSome = true → lastIsRemoval st.sent = false)) :
    noDoubleRemoval (pollBody P o st).sent = true ∧
      ((pollBody P o st).r.lastToken.isSome = true →
        lastIsRemoval (pollBody P o st).sent = false) := by
  obtain ⟨h1, h2⟩ := h
  rcases pollBody_sent P o st with ⟨hs, hl⟩ | ⟨hsome, hs, hl⟩ | ⟨tok, hl, ⟨hte, hs⟩ | ⟨hte, hs⟩⟩
  · rw [hs, hl]; exact ⟨h1, h2⟩
  · rw [hs, hl, noDoubleRemoval_concat, h1, h2 hsome]
    exact ⟨rfl, fun hx => by cases hx⟩
  · rw [hs, hl, noDoubleRemoval_concat, lastIsRemoval_concat, h1]
    exact ⟨by simp, fun _ => rfl⟩
  · rw [hs, hl]
    exact ⟨h1, fun _ => h2 (TokensEqual_some_true tok _ hte)⟩

/-- The loop body keeps: the first scan sent is not a removal, and no token is
remembered before a scan was sent. -/
theorem pollBody_firstIsRemoval (P : List (Fin 256) → Except String String) (o : Poll)
    (st : PollState)
    (h : firstIsRemoval st.sent = false ∧ (st.sent = [] → st.r.lastToken = none)) :
    firstIsRemoval (pollBody P o st).sent = false ∧
      ((pollBody P o st).sent = [] → (pollBody P o st).r.lastToken = none) := by
  obtain ⟨h1, h2⟩ := h
  rcases pollBody_sent P o st with ⟨hs, hl⟩ | ⟨hsome, hs, hl⟩ | ⟨tok, hl, ⟨hte, hs⟩ | ⟨hte, hs⟩⟩
  · rw [hs, hl]; exact ⟨h1, h2⟩
  · have hne : st.sent ≠ [] := by
      intro he
      rw [h2 he] at hsome
      cases hsome
    rw [hs, hl, firstIsRemoval_concat]
    exact ⟨by simp [hne, h1], fun _ => rfl⟩
  · rw [hs, hl, firstIsRemoval_concat]
    refine ⟨?_, fun hx => by simp at hx⟩
    split
    · rfl
    · exact h1
  · have hsome := TokensEqual_some_true tok _ hte
    have hne : st.sent ≠ [] := by
      intro he
      rw [h2 he] at hsome
      cases hsome
    rw [hs, hl]
    exact ⟨h1, fun hx => absurd hx hne⟩

/-- C17. A poll that finds no target sends a removal scan (absent token, the
reader's device as source) exactly when a token is remembered, and then
forgets the token. Over any inputs of the poll loop no two removal scans are
sent in a row, and a reader that starts with no remembered token never sends
a removal first. -/
theorem removal_once_per_presence (P : List (Fin 256) → Except String String)
    (r : Pn532UartReader) (ins : List PollInput) :
    (∀ (o : Poll) (st : PollState), o.inListPassiveTarget = .ok none →
      pollBody P o st =
        match st.r.lastToken with
        | some _ =>
          { st with sent := st.sent ++ [Scan.mk st.r.device none none],
                    r := { st.r with lastToken := none } }
        | none => st) ∧
    noDoubleRemoval (pollLoop P ins (PollState.start r)).sent = true ∧
    (r.lastToken = none → firstIsRemoval (pollLoop P ins (PollState.start r)).sent = false) := by
  refine ⟨?_, ?_, ?_⟩
  · intro o st ho
    unfold pollBody
    simp only [ho]
  · exact (pollLoop_sent_invariant P
      (fun sent last => noDoubleRemoval sent = true ∧
        (last.isSome = true → lastIsRemoval sent = false))
      (pollBody_noDoubleRemoval P) ins (PollState.start r) ⟨rfl, fun _ => rfl⟩).1
  · intro hr
    exact (pollLoop_sent_invariant P
      (fun sent last => firstIsRemoval sent = false ∧ (sent = [] → last = none))
      (pollBody_firstIsRemoval P) ins (PollState.start r) ⟨rfl, fun _ => hr⟩).1

/-- C17 on a concrete run: a tag is found, gone for two polls, found again and
gone again; one removal is sent for each absence. -/
theorem removal_once_per_presence_witness :
    (pollLoop parseNothing
        [.poll pollNoTarget, .poll pollNtag, .poll pollNoTarget, .poll pollNoTarget,
          .poll pollNtag, .poll pollNoTarget] (PollState.start readerOpened)).sent.map
        (fun x => x.Token.isNone) = [false, true, false, true] ∧
    noDoubleRemoval (pollLoop parseNothing
        [.poll pollNoTarget, .poll pollNtag, .poll pollNoTarget, .poll pollNoTarget,
          .poll pollNtag, .poll pollNoTarget] (PollState.start readerOpened)).sent = true ∧
    firstIsRemoval (pollLoop parseNothing
        [.poll pollNoTarget, .poll pollNtag, .poll pollNoTarget, .poll pollNoTarget,
          .poll pollNtag, .poll pollNoTarget] (PollState.start readerOpened)).sent = false :=
  have h := removal_once_per_presence parseNothing readerOpened
    [.poll pollNoTarget, .poll pollNtag, .poll pollNoTarget, .poll pollNoTarget,
      .poll pollNtag, .poll pollNoTarget]
  ⟨by decide, h.2.1, h.2.2 rfl⟩

/-! ## Properties of discovery: probe failures and the first working candidate -/

/-- C18, the code at the failing input: `serial.Open` fails on the first
candidate, `connect` returns no port, and `Detect` faults on `port.Close()`:
the path is not added to the block list and the second candidate is not tried.
When the port opens and the handshake fails, the same call blocklists the path
and goes on to return the second candidate. -/
theorem detect_faults_when_open_fails :
    connect busyEnv.hw "/dev/ttyUSB0" = (none, some "Serial port busy") ∧
    Detect busyEnv [] [] =
      { device := none, serialBlockList := [],
        probes := [{ name := "/dev/ttyUSB0", blockList := [] }], closed := [] } ∧
    (Detect silentEnv [] []).device = some "pn532_uart:/dev/ttyUSB1" ∧
    (Detect silentEnv [] []).serialBlockList = ["/dev/ttyUSB0"] := by
  decide

theorem spec_ne_empty (name : String) : "pn532_uart:" ++ name ≠ "" := by
  intro h
  have h2 := congrArg String.length h
  simp only [String.length_append] at h2
  have h3 : "pn532_uart:".length = 11 := by decide
  have h4 : "".length = 0 := by decide
  omega

theorem spec_injective (p q : String) (h : "pn532_uart:" ++ p = "pn532_uart:" ++ q) : p = q := by
  have h2 := congrArg String.data h
  simp only [String.data_append] at h2
  exact String.ext (List.append_cancel_left h2)

/-- A candidate that the second loop skips is in the block list at that time
or meets one of the tests against the exclusion list. -/
theorem skipped_cases (env : DetectEnv) (connected : List String) (name : String)
    (bl : List String)
    (hc : Contains bl name = true ∨ Contains connected ("pn532_uart:" ++ name) = true ∨
      skipResolved env connected name = true ∨
      connected.any (fun connDev => HasSuffix connDev (":" ++ name)) = true) :
    name ∈ bl ∨ excluded env connected name = true := by
  rcases hc with h1 | h2 | h3 | h4
  · left; simpa [Contains] using h1
  · right; simp [excluded, h2]
  · right; simp [excluded, h3]
  · right
    unfold excluded
    rw [h4]
    simp

/-- When the second loop returns a spec, it is the spec of a candidate on
which `connect` succeeded and whose port was closed; the probes made are, in
order, failed ones among the candidates before it and then that candidate; the
block list has grown by the failed ones; and every candidate before it was in
the block list, excluded, or probed and failed. -/
theorem detectLoop_found (env : DetectEnv) (connected : List String) (l : List String)
    (acc : DetectResult) (d : String)
    (h : (detectLoop env connected l acc).device = some d) (hne : d ≠ "") :
    ∃ (before : List String) (p : String) (after failed : List String) (port : Port),
      l = before ++ p :: after ∧ d = "pn532_uart:" ++ p ∧
      connect env.hw p = (some port, none) ∧
      (detectLoop env connected l acc).probes.map Probe.name
        = acc.probes.map Probe.name ++ failed ++ [p] ∧
      (detectLoop env connected l acc).closed.getLast? = some port.Close.2 ∧
      (detectLoop env connected l acc).serialBlockList = acc.serialBlockList ++ failed ∧
      (∀ q ∈ failed, q ∈ before ∧ (connect env.hw q).2 ≠ none) ∧
      (∀ q ∈ before, q ∈ acc.serialBlockList ∨ excluded env connected q = true ∨ q ∈ failed) := by
  induction l generalizing acc with
  | nil =>
    rw [detectLoop] at h
    injection h with h
    exact absurd h.symm hne
  | cons name rest ih =>
    rw [detectLoop_cons] at h ⊢
    by_cases hc : Contains acc.serialBlockList name = true
        ∨ Contains connected ("pn532_uart:" ++ name) = true
        ∨ skipResolved env connected name = true
        ∨ connected.any (fun connDev => HasSuffix connDev (":" ++ name)) = true
    · rw [if_pos hc] at h ⊢
      obtain ⟨before, p, after, failed, port, hl, hd, hcp, hpr, hcl, hbl, hf, hb⟩ := ih acc h
      refine ⟨name :: before, p, after, failed, port, by rw [hl]; rfl, hd, hcp, hpr, hcl, hbl,
        ?_, ?_⟩
      · intro q hq
        exact ⟨List.mem_cons_of_mem _ (hf q hq).1, (hf q hq).2⟩
      · intro q hq
        rcases List.mem_cons.mp hq with hq | hq
        · subst hq
          rcases skipped_cases env connected q _ hc with h1 | h2
          · exact Or.inl h1
          · exact Or.inr (Or.inl h2)
        · exact hb q hq
    · rw [if_neg hc] at h ⊢
      rcases hcon : connect env.hw name with ⟨_ | p0, _ | e⟩
      · simp only [hcon] at h
        cases h
      · simp only [hcon] at h
        cases h
      · simp only [hcon] at h ⊢
        injection h with h
        refine ⟨[], name, rest, [], p0, rfl, h.symm, hcon, by simp, by simp, by simp, ?_, ?_⟩
        · intro q hq; cases hq
        · intro q hq; cases hq
      · simp only [hcon] at h ⊢
        obtain ⟨before, p, after, failed, port, hl, hd, hcp, hpr, hcl, hbl, hf, hb⟩ := ih _ h
        refine ⟨name :: before, p, after, name :: failed, port, by rw [hl]; rfl, hd, hcp,
          ?_, hcl, ?_, ?_, ?_⟩
        · rw [hpr]; simp
        · rw [hbl]; simp
        · intro q hq
          rcases List.mem_cons.mp hq with hq | hq
          · subst hq
            exact ⟨List.mem_cons_self _ _, by rw [hcon]; simp⟩
          · exact ⟨List.mem_cons_of_mem _ (hf q hq).1, (hf q hq).2⟩
        · intro q hq
          rcases List.mem_cons.mp hq with hq | hq
          · subst hq
            exact Or.inr (Or.inr (List.mem_cons_self _ _))
          · rcases hb q hq with h1 | h2 | h3
            · rcases List.mem_append.mp h1 with h1 | h1
              · exact Or.inl h1
              · rw [List.mem_singleton] at h1
                subst h1
                exact Or.inr (Or.inr (List.mem_cons_self _ _))
            · exact Or.inr (Or.inl h2)
            · exact Or.inr (Or.inr (List.mem_cons_of_mem _ h3))

/-- When the second loop returns the empty string, every probe it made failed,
the block list has grown by the probed names, and every candidate was in the
block list, excluded, or probed and failed. -/
theorem detectLoop_notFound (env : DetectEnv) (connected : List String) (l : List String)
    (acc : DetectResult) (h : (detectLoop env connected l acc).device = some "") :
    ∃ failed : List String,
      (detectLoop env connected l acc).probes.map Probe.name
        = acc.probes.map Probe.name ++ failed ∧
      (detectLoop env connected l acc).serialBlockList = acc.serialBlockList ++ failed ∧
      (∀ q ∈ failed, q ∈ l ∧ (connect env.hw q).2 ≠ none) ∧
      (∀ q ∈ l, q ∈ acc.serialBlockList ∨ excluded env connected q = true ∨ q ∈ failed) := by
  induction l generalizing acc with
  | nil =>
    rw [detectLoop]
    refine ⟨[], by simp, by simp, ?_, ?_⟩
    · intro q hq; cases hq
    · intro q hq; cases hq
  | cons name rest ih =>
    rw [detectLoop_cons] at h ⊢
    by_cases hc : Contains acc.serialBlockList name = true
        ∨ Contains connected ("pn532_uart:" ++ name) = true
        ∨ skipResolved env connected name = true
        ∨ connected.any (fun connDev => HasSuffix connDev (":" ++ name)) = true
    · rw [if_pos hc] at h ⊢
      obtain ⟨failed, hpr, hbl, hf, hb⟩ := ih acc h
      refine ⟨failed, hpr, hbl, ?_, ?_⟩
      · intro q hq
        exact ⟨List.mem_cons_of_mem _ (hf q hq).1, (hf q hq).2⟩
      · intro q hq
        rcases List.mem_cons.mp hq with hq | hq
        · subst hq
          rcases skipped_cases env connected q _ hc with h1 | h2
          · exact Or.inl h1
          · exact Or.inr (Or.inl h2)
        · exact hb q hq
    · rw [if_neg hc] at h ⊢
      rcases hcon : connect env.hw name with ⟨_ | p0, _ | e⟩
      · simp only [hcon] at h
        cases h
      · simp only [hcon] at h
        cases h
      · simp only [hcon] at h
        injection h with h
        exact absurd h (spec_ne_empty name)
      · simp only [hcon] at h ⊢
        obtain ⟨failed, hpr, hbl, hf, hb⟩ := ih _ h
        refine ⟨name :: failed, ?_, ?_, ?_, ?_⟩
        · rw [hpr]; simp
        · rw [hbl]; simp
        · intro q hq
          rcases List.mem_cons.mp hq with hq | hq
          · subst hq
            exact ⟨List.mem_cons_self _ _, by rw [hcon]; simp⟩
          · exact ⟨List.mem_cons_of_mem _ (hf q hq).1, (hf q hq).2⟩
        · intro q hq
          rcases List.mem_cons.mp hq with hq | hq
          · subst hq
            exact Or.inr (Or.inr (List.mem_cons_self _ _))
          · rcases hb q hq with h1 | h2 | h3
            · rcases List.mem_append.mp h1 with h1 | h1
              · exact Or.inl h1
              · rw [List.mem_singleton] at h1
                subst h1
                exact Or.inr (Or.inr (List.mem_cons_self _ _))
            · exact Or.inr (Or.inl h2)
            · exact Or.inr (Or.inr (List.mem_cons_of_mem _ h3))

/-- C19. If `Detect` returns the spec of path `p`, then `p` is a candidate on
which `connect` succeeded and whose port was closed again; the calls of
`connect` were, in order, failed ones on candidates before `p` and last the
one on `p`, so nothing after `p` was probed; the failed ones are what the
block list has gained; and every candidate before `p` was in the block list
at entry, excluded by the exclusion list, or probed and failed. If `Detect`
returns the empty string, every call of `connect` failed, the probed paths are
what the block list has gained, and every candidate was in the block list at
entry, excluded, or probed and failed. -/
theorem detect_first_working (env : DetectEnv) (serialBlockList connected : List String) :
    (∀ p : String,
      (Detect env serialBlockList connected).device = some ("pn532_uart:" ++ p) →
      ∃ (before after failed : List String) (port : Port),
        toCheck env = before ++ p :: after ∧
        connect env.hw p = (some port, none) ∧
        (Detect env serialBlockList connected).probes.map Probe.name = failed ++ [p] ∧
        (Detect env serialBlockList connected).closed.getLast? = some port.Close.2 ∧
        (Detect env serialBlockList connected).serialBlockList = serialBlockList ++ failed ∧
        (∀ q ∈ failed, q ∈ before ∧ (connect env.hw q).2 ≠ none) ∧
        (∀ q ∈ before,
          q ∈ serialBlockList ∨ excluded env connected q = true ∨ q ∈ failed)) ∧
    ((Detect env serialBlockList connected).device = some "" →
      (Detect env serialBlockList connected).serialBlockList
        = serialBlockList ++ (Detect env serialBlockList connected).probes.map Probe.name ∧
      (∀ q ∈ (Detect env serialBlockList connected).probes.map Probe.name,
        q ∈ toCheck env ∧ (connect env.hw q).2 ≠ none) ∧
      (∀ q ∈ toCheck env,
        q ∈ serialBlockList ∨ excluded env connected q = true ∨
          q ∈ (Detect env serialBlockList connected).probes.map Probe.name)) := by
  constructor
  · intro p h
    obtain ⟨before, p2, after, failed, port, hl, hd, hcp, hpr, hcl, hbl, hf, hb⟩ :=
      detectLoop_found env connected (toCheck env) _ _ h (spec_ne_empty p)
    have hp : p = p2 := spec_injective p p2 hd
    subst hp
    refine ⟨before, after, failed, port, hl, hcp, ?_, hcl, hbl, hf, hb⟩
    simpa using hpr
  · intro h
    obtain ⟨failed, hpr, hbl, hf, hb⟩ := detectLoop_notFound env connected (toCheck env) _ h
    have hpr2 : (Detect env serialBlockList connected).probes.map Probe.name = failed := by
      simpa using hpr
    rw [hpr2]
    exact ⟨hbl, hf, hb⟩

/-- C19 on two hosts: one whose first port does not answer the handshake and
whose second does, and one on which no port answers. -/
theorem detect_first_working_witness :
    (∃ (before after failed : List String) (port : Port),
      toCheck silentEnv = before ++ "/dev/ttyUSB1" :: after ∧
      connect silentEnv.hw "/dev/ttyUSB1" = (some port, none) ∧
      (Detect silentEnv [] []).probes.map Probe.name = failed ++ ["/dev/ttyUSB1"] ∧
      (Detect silentEnv [] []).closed.getLast? = some port.Close.2 ∧
      (Detect silentEnv [] []).serialBlockList = [] ++ failed ∧
      (∀ q ∈ failed, q ∈ before ∧ (connect silentEnv.hw q).2 ≠ none) ∧
      (∀ q ∈ before, q ∈ [] ∨ excluded silentEnv [] q = true ∨ q ∈ failed)) ∧
    ((Detect deadEnv [] []).serialBlockList
        = [] ++ (Detect deadEnv [] []).probes.map Probe.name ∧
      (∀ q ∈ (Detect deadEnv [] []).probes.map Probe.name,
        q ∈ toCheck deadEnv ∧ (connect deadEnv.hw q).2 ≠ none) ∧
      (∀ q ∈ toCheck deadEnv,
        q ∈ [] ∨ excluded deadEnv [] q = true ∨
          q ∈ (Detect deadEnv [] []).probes.map Probe.name)) :=
  ⟨(detect_first_working silentEnv [] []).1 "/dev/ttyUSB1" (by decide),
   (detect_first_working deadEnv [] []).2 (by decide)⟩

end Tapto
